import Mathlib

/-
Verification of the box-cricket match-scoring state machine.

Shallow embedding of the scoring core of the repository:
  * src/src/controllers/matchController.js : conductToss, recordBall,
    startSecondInnings, undoLastBall (the post-authorization, post-lookup
    bodies; request/response plumbing, socket events and notifications are
    external collaborators and are not modelled),
  * the Match mongoose model (constants and matchSchema.methods.determineResult).

Modelling conventions:
  * JS numbers holding counters are embedded as Int (additions and the
    subtractions performed by undo are exact integer arithmetic in JS for
    these fields).
  * A player slot such as currentBowler is an Option PlayerId; the source
    tests presence via `slot.user` / `slot.guestId`, and the cleared bowler
    `{}` corresponds to `none`.
  * The ledger is a List with push = append-at-tail and pop = drop-last,
    exactly the Array push/pop of the source.
  * runRate is embedded as an exact rational; the source additionally formats
    it with toFixed(2) for display, a presentational rounding that nothing in
    the scoring core reads back.
  * Fields that the scoring core never reads or writes (commentary,
    timestamps, free-hit flag, the batting/bowling tally sub-records of
    playerPerformances other than isOut/dismissalType) are omitted.
-/

namespace CricketBox

/-- Team identifier: the two rosters of a match (`teamA` / `teamB`). -/
inductive Team
  | teamA
  | teamB
deriving DecidableEq

/-- A stable player reference: a registered user id or a guest id.
The source stores `{user, isGuest, guestName, guestId}`; identity checks are
by `user` id for registered players and by `guestId` for guests. -/
inductive PlayerId
  | user (id : String)
  | guest (id : String)
deriving DecidableEq

/-- Match status enum (config/constants.js MATCH_STATUS). -/
inductive MatchStatus
  | scheduled
  | toss
  | inProgress
  | inningsBreak
  | completed
  | abandoned
  | cancelled
deriving DecidableEq

/-- Innings status enum (config/constants.js INNINGS_STATUS). -/
inductive InningsStatus
  | notStarted
  | inProgress
  | completed
deriving DecidableEq

/-- Ball outcome enum (config/constants.js BALL_OUTCOMES). -/
inductive Outcome
  | dot
  | one
  | two
  | three
  | four
  | six
  | wide
  | noBall
  | bye
  | legBye
  | wicket
deriving DecidableEq

/-- Toss decision enum (config/constants.js TOSS_DECISIONS). -/
inductive TossDecision
  | bat
  | bowl
deriving DecidableEq

/-- Match result type enum (config/constants.js MATCH_RESULTS). -/
inductive ResultType
  | teamAWon
  | teamBWon
  | tie
  | noResult
  | abandoned
deriving DecidableEq

/-- Win margin of a decided match: wickets in hand or run difference. -/
inductive WinMargin
  | wickets (n : Int)
  | runs (n : Int)
deriving DecidableEq

/-- DEFAULTS.BALLS_PER_OVER from config/constants.js. -/
def ballsPerOver : Int := 6

/-- Frozen match settings (matchSchema.settings). -/
structure Settings where
  overs : Int
  playersPerTeam : Int
  wideRuns : Int
  noBallRuns : Int
  noBallFreehit : Bool
deriving DecidableEq

/-- Runs breakdown of one delivery (ballSchema.runs). -/
structure Runs where
  batsmanRuns : Int
  extraRuns : Int
  totalRuns : Int
deriving DecidableEq

/-- Wicket detail of a delivery (ballSchema.wicket). -/
structure WicketInfo where
  dismissalType : Option String
  batsmanOut : Option PlayerId
  fielder : Option PlayerId
deriving DecidableEq

/-- One delivery record of the ledger (ballSchema). -/
structure Ball where
  overNumber : Int
  ballNumber : Int
  bowler : Option PlayerId
  batsman : Option PlayerId
  nonStriker : Option PlayerId
  outcome : Outcome
  runs : Runs
  isWicket : Bool
  wicket : Option WicketInfo
  isLegalDelivery : Bool
  isBoundary : Bool
deriving DecidableEq

/-- Extras taxonomy of an innings (inningsSchema.extras). -/
structure Extras where
  wides : Int
  noBalls : Int
  byes : Int
  legByes : Int
  total : Int
deriving DecidableEq

/-- One fall-of-wickets entry (inningsSchema.fallOfWickets element). -/
structure FallOfWicket where
  wicketNumber : Int
  runs : Int
  overs : Int
  balls : Int
  batsman : Option PlayerId
deriving DecidableEq

/-- One innings (inningsSchema). `striker` and `nonStriker` flatten the
source's `currentBatsmen.striker` / `currentBatsmen.nonStriker`. -/
structure Innings where
  battingTeam : Team
  bowlingTeam : Team
  status : InningsStatus
  totalRuns : Int
  totalWickets : Int
  totalOvers : Int
  totalBalls : Int
  extras : Extras
  currentOver : Int
  currentBall : Int
  striker : Option PlayerId
  nonStriker : Option PlayerId
  currentBowler : Option PlayerId
  balls : List Ball
  fallOfWickets : List FallOfWicket
  runRate : Rat
  target : Option Int
deriving DecidableEq

/-- Toss outcome (matchSchema.toss). -/
structure Toss where
  winner : Team
  decision : TossDecision
deriving DecidableEq

/-- Computed match result (matchSchema.result); the generated resultText
display string is omitted, it is derived verbatim from these fields. -/
structure MatchResult where
  winner : Option Team
  resultType : ResultType
  winMargin : Option WinMargin
deriving DecidableEq

/-- Per-player per-match performance row (playerPerformanceSchema); only the
fields the scoring core writes (batting.isOut, batting.dismissalType) are
kept, besides the identity used by the lookup. -/
structure PlayerPerformance where
  player : PlayerId
  team : Team
  battingIsOut : Bool
  battingDismissalType : Option String
deriving DecidableEq

/-- Selector of the active innings (matchSchema.currentInnings). -/
inductive InningsSel
  | first
  | second
deriving DecidableEq

/-- A team roster (matchSchema.teamA / matchSchema.teamB): the team name and
its ordered player list, kept to the identities the lookups of setBatsmen,
setBowler and setNewBatsman match on (user id or guestId). -/
structure TeamRoster where
  name : String
  players : List PlayerId
deriving DecidableEq

/-- Match aggregate root (matchSchema), restricted to the scoring core. -/
structure Match where
  status : MatchStatus
  settings : Settings
  toss : Option Toss
  currentInnings : InningsSel
  teamA : TeamRoster
  teamB : TeamRoster
  first : Innings
  second : Innings
  result : Option MatchResult
  playerPerformances : List PlayerPerformance
deriving DecidableEq

/-- `match[team]` of the source: the roster of the given team. -/
def rosterOf (m : Match) (t : Team) : TeamRoster :=
  match t with
  | .teamA => m.teamA
  | .teamB => m.teamB

/-- The active innings, `match.innings[match.currentInnings]` of the source. -/
def Match.cur (m : Match) : Innings :=
  match m.currentInnings with
  | .first => m.first
  | .second => m.second

/-- Write back the active innings. -/
def setCurrentInnings (m : Match) (inn : Innings) : Match :=
  match m.currentInnings with
  | .first => { m with first := inn }
  | .second => { m with second := inn }

/-- The innings that is not currently active. -/
def otherInnings (m : Match) : Innings :=
  match m.currentInnings with
  | .first => m.second
  | .second => m.first

/-- Typed error signal of the scoring core (utils/errors.js); only
ValidationError is reachable in the modelled post-authorization bodies. -/
inductive ScoringError
  | validationError (msg : String)
deriving DecidableEq

/-- Request body of recordBall (matchController.js 420-432); `batsmanOut` and
`fielder` merge the source's separate registered-id / guest-id fields into one
optional PlayerId each. -/
structure BallInput where
  outcome : Outcome
  runs : Int
  isWicket : Bool
  dismissalType : Option String
  batsmanOut : Option PlayerId
  fielder : Option PlayerId
deriving DecidableEq

/-- Result of the outcome switch (matchController.js 469-525): the run
breakdown, legality and boundary flags, and the extras buckets after the
per-outcome bucket increment that the source performs inside the switch. -/
structure RunCalc where
  batsmanRuns : Int
  extraRuns : Int
  totalRuns : Int
  isLegalDelivery : Bool
  isBoundary : Bool
  extras : Extras
deriving DecidableEq

/-- The outcome switch of recordBall (matchController.js 476-525). The
source's default branch is unreachable: the request validator and the ball
schema restrict `outcome` to the enum embedded as `Outcome`. -/
def switchOutcome (s : Settings) (ex : Extras) (outcome : Outcome) (runs : Int) :
    RunCalc :=
  match outcome with
  | .dot => ⟨0, 0, 0, true, false, ex⟩
  | .one => ⟨1, 0, 1, true, false, ex⟩
  | .two => ⟨2, 0, 2, true, false, ex⟩
  | .three => ⟨3, 0, 3, true, false, ex⟩
  | .four => ⟨4, 0, 4, true, true, ex⟩
  | .six => ⟨6, 0, 6, true, true, ex⟩
  | .wide =>
      let extraRuns := s.wideRuns + runs
      ⟨0, extraRuns, extraRuns, false, false,
        { ex with wides := ex.wides + extraRuns }⟩
  | .noBall =>
      let extraRuns := s.noBallRuns
      ⟨runs, extraRuns, extraRuns + runs, false, false,
        { ex with noBalls := ex.noBalls + extraRuns }⟩
  | .bye =>
      let extraRuns := if runs = 0 then 1 else runs
      ⟨0, extraRuns, extraRuns, true, false,
        { ex with byes := ex.byes + extraRuns }⟩
  | .legBye =>
      let extraRuns := if runs = 0 then 1 else runs
      ⟨0, extraRuns, extraRuns, true, false,
        { ex with legByes := ex.legByes + extraRuns }⟩
  | .wicket => ⟨0, 0, 0, true, false, ex⟩

/-- The ball record literal of recordBall (matchController.js 528-545). -/
def mkBall (inn : Innings) (inp : BallInput) (rc : RunCalc) : Ball :=
  { overNumber := inn.currentOver
    ballNumber := inn.currentBall + 1
    bowler := inn.currentBowler
    batsman := inn.striker
    nonStriker := inn.nonStriker
    outcome := inp.outcome
    runs := ⟨rc.batsmanRuns, rc.extraRuns, rc.totalRuns⟩
    isWicket := inp.isWicket
    wicket := none
    isLegalDelivery := rc.isLegalDelivery
    isBoundary := rc.isBoundary }

/-- Guard of the wicket-handling block (matchController.js 548). -/
def isWicketBall (inp : BallInput) : Bool :=
  inp.isWicket || inp.outcome == Outcome.wicket

/-- Mutation performed on the row found by `playerPerformances.find` in
matchController.js 582-591: the first row of the given player is marked out
with the dismissal type; later rows (there is one row per player) and all
other rows are untouched. -/
def markBatsmanOut (perfs : List PlayerPerformance) (pid : PlayerId)
    (dt : Option String) : List PlayerPerformance :=
  match perfs with
  | [] => []
  | p :: rest =>
      if p.player = pid then
        { p with battingIsOut := true, battingDismissalType := dt } :: rest
      else
        p :: markBatsmanOut rest pid dt

/-- Wicket handling of recordBall (matchController.js 547-592). The source's
performance lookup tests `batsmanOutId` / `batsmanOutGuestId` from the request
and returns false when neither is supplied, so the defaulted-to-striker case
updates no performance row. -/
def applyWicket (inn : Innings) (perfs : List PlayerPerformance)
    (inp : BallInput) (rc : RunCalc) (ball : Ball) :
    Ball × Innings × List PlayerPerformance :=
  if isWicketBall inp then
    let batsmanOut :=
      match inp.batsmanOut with
      | some p => some p
      | none => inn.striker
    let ball :=
      { ball with
          isWicket := true
          wicket := some ⟨inp.dismissalType, batsmanOut, inp.fielder⟩ }
    let inn := { inn with totalWickets := inn.totalWickets + 1 }
    let inn :=
      { inn with
          fallOfWickets := inn.fallOfWickets ++
            [{ wicketNumber := inn.totalWickets
               runs := inn.totalRuns + rc.totalRuns
               overs := inn.currentOver
               balls := inn.currentBall + (if rc.isLegalDelivery then 1 else 0)
               batsman := batsmanOut }] }
    let perfs :=
      match inp.batsmanOut with
      | some pid => markBatsmanOut perfs pid inp.dismissalType
      | none => perfs
    (ball, inn, perfs)
  else
    (ball, inn, perfs)

/-- Ledger append and totals update of recordBall (matchController.js
594-601): push the ball, add its total runs, recompute extras.total. -/
def applyLedger (inn : Innings) (rc : RunCalc) (ball : Ball) : Innings :=
  let inn :=
    { inn with
        balls := inn.balls ++ [ball]
        totalRuns := inn.totalRuns + rc.totalRuns }
  { inn with
      extras :=
        { inn.extras with
            total := inn.extras.wides + inn.extras.noBalls +
              inn.extras.byes + inn.extras.legByes } }

/-- Legal-delivery bookkeeping and strike rotation of recordBall
(matchController.js 603-629): cursor increment, over rollover with end-of-over
swap and bowler clearing, then the odd-run swap. `Int.tmod` is the truncated
remainder of the JS `%` operator. -/
def applyCursor (inn : Innings) (rc : RunCalc) : Innings :=
  let inn :=
    if rc.isLegalDelivery then
      let inn :=
        { inn with
            currentBall := inn.currentBall + 1
            totalBalls := inn.totalBalls + 1 }
      if ballsPerOver ≤ inn.currentBall then
        { inn with
            currentOver := inn.currentOver + 1
            totalOvers := inn.totalOvers + 1
            currentBall := 0
            striker := inn.nonStriker
            nonStriker := inn.striker
            currentBowler := none }
      else
        inn
    else
      inn
  if rc.isLegalDelivery && (rc.batsmanRuns.tmod 2 == 1) then
    { inn with striker := inn.nonStriker, nonStriker := inn.striker }
  else
    inn

/-- Run-rate recomputation of recordBall (matchController.js 631-633); the
source stores toFixed(2) of this exact rational, a display rounding nothing
in the core reads back. -/
def applyRunRate (inn : Innings) : Innings :=
  let totalOvers : Rat := (inn.totalOvers : Rat) + (inn.currentBall : Rat) / 6
  { inn with
      runRate := if 0 < totalOvers then (inn.totalRuns : Rat) / totalOvers else 0 }

/-- matchSchema.methods.determineResult (Match model, lines 512-553). The
innings subdocuments always exist after the toss, so the source's
null-innings guard is vacuous and is dropped; resultText is display-only. -/
def determineResult (m : Match) : Option MatchResult :=
  if m.status ≠ MatchStatus.completed then none
  else
    let firstInnings := m.first
    let secondInnings := m.second
    let firstBattingTeam := firstInnings.battingTeam
    let secondBattingTeam := secondInnings.battingTeam
    let firstTeamScore := firstInnings.totalRuns
    let secondTeamScore := secondInnings.totalRuns
    if firstTeamScore < secondTeamScore then
      let wicketsRemaining :=
        m.settings.playersPerTeam - 1 - secondInnings.totalWickets
      some
        { winner := some secondBattingTeam
          resultType :=
            if secondBattingTeam = Team.teamA then ResultType.teamAWon
            else ResultType.teamBWon
          winMargin := some (WinMargin.wickets wicketsRemaining) }
    else if secondTeamScore < firstTeamScore then
      let runMargin := firstTeamScore - secondTeamScore
      some
        { winner := some firstBattingTeam
          resultType :=
            if firstBattingTeam = Team.teamA then ResultType.teamAWon
            else ResultType.teamBWon
          winMargin := some (WinMargin.runs runMargin) }
    else
      some { winner := none, resultType := ResultType.tie, winMargin := none }

/-- Innings-completion check of recordBall (matchController.js 636-656):
by wickets or overs exhaustion; a completed first innings moves the match to
the innings break and stamps the second innings' target, a completed second
innings completes the match and computes the result. -/
def checkInningsCompletion (m : Match) : Match :=
  let inn := m.cur
  let maxWickets := m.settings.playersPerTeam - 1
  let maxOvers := m.settings.overs
  if maxWickets ≤ inn.totalWickets ∨ maxOvers ≤ inn.totalOvers then
    let m := setCurrentInnings m { inn with status := InningsStatus.completed }
    match m.currentInnings with
    | .first =>
        { m with
            status := MatchStatus.inningsBreak
            second := { m.second with target := some (inn.totalRuns + 1) } }
    | .second =>
        let m := { m with status := MatchStatus.completed }
        { m with result := determineResult m }
  else
    m

/-- Chase-completion check of recordBall (matchController.js 658-667): in the
second innings, reaching first-innings runs + 1 completes the match at once. -/
def checkChaseCompletion (m : Match) : Match :=
  let inn := m.cur
  if m.currentInnings = InningsSel.second ∧
      m.first.totalRuns + 1 ≤ inn.totalRuns then
    let m := setCurrentInnings m { inn with status := InningsStatus.completed }
    let m := { m with status := MatchStatus.completed }
    { m with result := determineResult m }
  else
    m

/-- The mutation performed by a successful recordBall call
(matchController.js 469-667), stage by stage in source order. -/
def applyBallCore (m : Match) (inp : BallInput) : Match :=
  let inn := m.cur
  let rc := switchOutcome m.settings inn.extras inp.outcome inp.runs
  let inn := { inn with extras := rc.extras }
  let ball := mkBall inn inp rc
  let w := applyWicket inn m.playerPerformances inp rc ball
  let ball := w.1
  let inn := w.2.1
  let perfs := w.2.2
  let inn := applyLedger inn rc ball
  let inn := applyCursor inn rc
  let inn := applyRunRate inn
  let m := setCurrentInnings { m with playerPerformances := perfs } inn
  let m := checkInningsCompletion m
  checkChaseCompletion m

/-- recordBall (matchController.js 450-667), after authorization and lookup:
the four precondition checks in source order, then the scoring mutation. -/
def recordBall (m : Match) (inp : BallInput) : Except ScoringError Match :=
  if m.status ≠ MatchStatus.inProgress then
    Except.error (ScoringError.validationError "Match is not in progress")
  else if m.cur.status ≠ InningsStatus.inProgress then
    Except.error (ScoringError.validationError "Innings has not started yet")
  else if m.cur.striker = none then
    Except.error (ScoringError.validationError "Please set the batsmen first")
  else if m.cur.currentBowler = none then
    Except.error (ScoringError.validationError "Please set the bowler first")
  else
    Except.ok (applyBallCore m inp)

/-- The reversal of one ledger entry performed by undoLastBall
(matchController.js 848-886) on the active innings. -/
def undoInnings (s : Settings) (inn : Innings) (lastBall : Ball) : Innings :=
  let inn :=
    { inn with
        balls := inn.balls.dropLast
        totalRuns := inn.totalRuns - lastBall.runs.totalRuns }
  let inn :=
    if lastBall.isLegalDelivery then
      let inn := { inn with totalBalls := inn.totalBalls - 1 }
      if inn.currentBall = 0 then
        { inn with
            currentOver := inn.currentOver - 1
            totalOvers := inn.totalOvers - 1
            currentBall := ballsPerOver - 1 }
      else
        { inn with currentBall := inn.currentBall - 1 }
    else
      inn
  let inn :=
    if lastBall.isWicket then
      { inn with
          totalWickets := inn.totalWickets - 1
          fallOfWickets := inn.fallOfWickets.dropLast }
    else
      inn
  let inn :=
    match lastBall.outcome with
    | .wide =>
        { inn with extras :=
            { inn.extras with wides := inn.extras.wides - lastBall.runs.extraRuns } }
    | .noBall =>
        { inn with extras :=
            { inn.extras with noBalls := inn.extras.noBalls - s.noBallRuns } }
    | .bye =>
        { inn with extras :=
            { inn.extras with byes := inn.extras.byes - lastBall.runs.extraRuns } }
    | .legBye =>
        { inn with extras :=
            { inn.extras with legByes := inn.extras.legByes - lastBall.runs.extraRuns } }
    | _ => inn
  { inn with
      extras :=
        { inn.extras with
            total := inn.extras.wides + inn.extras.noBalls +
              inn.extras.byes + inn.extras.legByes } }

/-- undoLastBall (matchController.js 833-900), after lookup: fails on an empty
ledger, otherwise pops the most recent ball of the active innings and reverses
its effects. No match- or innings-status check is performed by the source. -/
def undoLastBall (m : Match) : Except ScoringError Match :=
  let inn := m.cur
  match inn.balls.getLast? with
  | none => Except.error (ScoringError.validationError "No balls to undo")
  | some lastBall =>
      Except.ok (setCurrentInnings m (undoInnings m.settings inn lastBall))

/-- The innings value installed for both innings by conductToss
(matchController.js 197-225); the fields absent from the source's object
literal (batsmen, bowler, runRate, target) receive the schema defaults on
subdocument replacement. -/
def initInnings (batting bowling : Team) : Innings :=
  { battingTeam := batting
    bowlingTeam := bowling
    status := InningsStatus.notStarted
    totalRuns := 0
    totalWickets := 0
    totalOvers := 0
    totalBalls := 0
    extras := ⟨0, 0, 0, 0, 0⟩
    currentOver := 0
    currentBall := 0
    striker := none
    nonStriker := none
    currentBowler := none
    balls := []
    fallOfWickets := []
    runRate := 0
    target := none }

/-- conductToss (matchController.js 162-264), after authorization and lookup:
valid only in TOSS, derives the batting order from the decision, initializes
both innings, selects the first innings and moves the match in progress. -/
def conductToss (m : Match) (winner : Team) (decision : TossDecision) :
    Except ScoringError Match :=
  if m.status ≠ MatchStatus.toss then
    Except.error (ScoringError.validationError "Toss has already been conducted")
  else
    let battingFirst :=
      if decision = TossDecision.bat then winner
      else if winner = Team.teamA then Team.teamB else Team.teamA
    let bowlingFirst :=
      if battingFirst = Team.teamA then Team.teamB else Team.teamA
    Except.ok
      { m with
          toss := some ⟨winner, decision⟩
          first := initInnings battingFirst bowlingFirst
          second := initInnings bowlingFirst battingFirst
          currentInnings := InningsSel.first
          status := MatchStatus.inProgress }

/-- startSecondInnings (matchController.js 753-779), after lookup: valid only
in the innings break; flips the selector to the second innings and the match
status back in progress. -/
def startSecondInnings (m : Match) : Except ScoringError Match :=
  if m.status ≠ MatchStatus.inningsBreak then
    Except.error (ScoringError.validationError "Match is not in innings break")
  else
    Except.ok
      { m with
          currentInnings := InningsSel.second
          second := { m.second with status := InningsStatus.notStarted }
          status := MatchStatus.inProgress }

/-- setBatsmen (matchController.js 271-356), after authorization and lookup:
requires the match IN_PROGRESS; each supplied batter must be found in the
batting team's roster (else ValidationError) and is written to its slot; a
slot whose identifier is absent from the request is left unchanged; a
NOT_STARTED innings is then moved IN_PROGRESS with the over cursor
initialized to over 1, ball 0. -/
def setBatsmen (m : Match) (strikerIn nonStrikerIn : Option PlayerId) :
    Except ScoringError Match :=
  if m.status ≠ MatchStatus.inProgress then
    Except.error (ScoringError.validationError "Match is not in progress")
  else
    let inn := m.cur
    let roster := rosterOf m inn.battingTeam
    let innS :=
      match strikerIn with
      | some pid =>
          if roster.players.contains pid then
            some { inn with striker := some pid }
          else
            none
      | none => some inn
    match innS with
    | none =>
        Except.error
          (ScoringError.validationError "Striker not found in batting team")
    | some inn =>
        let innN :=
          match nonStrikerIn with
          | some pid =>
              if roster.players.contains pid then
                some { inn with nonStriker := some pid }
              else
                none
          | none => some inn
        match innN with
        | none =>
            Except.error
              (ScoringError.validationError "Non-striker not found in batting team")
        | some inn =>
            let inn :=
              if inn.status = InningsStatus.notStarted then
                { inn with
                    status := InningsStatus.inProgress
                    currentOver := 1
                    currentBall := 0 }
              else
                inn
            Except.ok (setCurrentInnings m inn)

/-- setBowler (matchController.js 363-413), after authorization and lookup:
the supplied bowler must be found in the bowling team's roster (else
ValidationError) and is written to the bowler slot; with no identifier in the
request nothing changes; the source performs no match- or innings-status
check here. -/
def setBowler (m : Match) (bowlerIn : Option PlayerId) :
    Except ScoringError Match :=
  let inn := m.cur
  let roster := rosterOf m inn.bowlingTeam
  match bowlerIn with
  | some pid =>
      if roster.players.contains pid then
        Except.ok (setCurrentInnings m { inn with currentBowler := some pid })
      else
        Except.error
          (ScoringError.validationError "Bowler not found in bowling team")
  | none => Except.ok m

/-- setNewBatsman (matchController.js 786-826), after authorization and
lookup: writes the incoming batter (found in the batting team's roster, else
ValidationError) to the striker slot; the source performs no status check
here. -/
def setNewBatsman (m : Match) (batsmanIn : Option PlayerId) :
    Except ScoringError Match :=
  let inn := m.cur
  let roster := rosterOf m inn.battingTeam
  match batsmanIn with
  | some pid =>
      if roster.players.contains pid then
        Except.ok (setCurrentInnings m { inn with striker := some pid })
      else
        Except.error
          (ScoringError.validationError "Batsman not found in batting team")
  | none => Except.ok m

end CricketBox

namespace CricketBox
/-- Modelled from the spec: the authoritative run-computation table of
section 4.2 step 2, as (batsmanRuns, extraRuns, legal, boundary) per outcome,
used to state the refinement claim about the outcome switch. -/
def ballRunsSpec (s : Settings) (outcome : Outcome) (runsParam : Int) :
    Int × Int × Bool × Bool :=
  match outcome with
  | .dot => (0, 0, true, false)
  | .one => (1, 0, true, false)
  | .two => (2, 0, true, false)
  | .three => (3, 0, true, false)
  | .four => (4, 0, true, true)
  | .six => (6, 0, true, true)
  | .wide => (0, s.wideRuns + runsParam, false, false)
  | .noBall => (runsParam, s.noBallRuns, false, false)
  | .bye => (0, if runsParam = 0 then 1 else runsParam, true, false)
  | .legBye => (0, if runsParam = 0 then 1 else runsParam, true, false)
  | .wicket => (0, 0, true, false)

/-- Extras bookkeeping consistency: the total bucket is the sum of the four
specific buckets (recomputed by every recordBall and undoLastBall call). -/
def extrasConsistent (inn : Innings) : Prop :=
  inn.extras.total = inn.extras.wides + inn.extras.noBalls +
    inn.extras.byes + inn.extras.legByes

/-- The ledger/totals consistency invariant: totals are the fold of the
ledger, the wicket count is the length of the fall-of-wickets list, the ball
count is the number of legal deliveries in the ledger. -/
def ledgerInvariant (inn : Innings) : Prop :=
  inn.totalRuns = (inn.balls.map (fun b => b.runs.totalRuns)).sum ∧
  inn.totalWickets = (inn.fallOfWickets.length : Int) ∧
  inn.totalBalls = ((inn.balls.filter (fun b => b.isLegalDelivery)).length : Int)

/-- Strengthened ledger invariant used for the preservation induction: the
wicket count also matches the number of wicket balls in the ledger. -/
def strongLedgerInvariant (inn : Innings) : Prop :=
  ledgerInvariant inn ∧
  inn.totalWickets = ((inn.balls.filter (fun b => b.isWicket)).length : Int)

/-- One scoring step on a match: a successful setBatsmen, setBowler,
setNewBatsman, recordBall, undoLastBall or startSecondInnings call — the
scoring calls the orchestrator dispatches to the active innings. -/
inductive ScoringStep : Match → Match → Prop
  | record (inp : BallInput) (m m2 : Match) :
      recordBall m inp = Except.ok m2 → ScoringStep m m2
  | undo (m m2 : Match) : undoLastBall m = Except.ok m2 → ScoringStep m m2
  | secondInnings (m m2 : Match) :
      startSecondInnings m = Except.ok m2 → ScoringStep m m2
  | batsmen (strikerIn nonStrikerIn : Option PlayerId) (m m2 : Match) :
      setBatsmen m strikerIn nonStrikerIn = Except.ok m2 → ScoringStep m m2
  | bowler (bowlerIn : Option PlayerId) (m m2 : Match) :
      setBowler m bowlerIn = Except.ok m2 → ScoringStep m m2
  | newBatsman (batsmanIn : Option PlayerId) (m m2 : Match) :
      setNewBatsman m batsmanIn = Except.ok m2 → ScoringStep m m2

/-- The run calculation of a recordBall call on the current innings. -/
abbrev rcOf (m : Match) (inp : BallInput) : RunCalc :=
  switchOutcome m.settings m.cur.extras inp.outcome inp.runs

/-- The ledger entry appended by a recordBall call: the ball literal after
the wicket-handling stage. -/
def ballOf (m : Match) (inp : BallInput) : Ball :=
  let rc := rcOf m inp
  let inn := { m.cur with extras := rc.extras }
  (applyWicket inn m.playerPerformances inp rc (mkBall inn inp rc)).1

/-- The active innings after the switch, wicket, ledger, cursor and run-rate
stages of a recordBall call, before the completion checks. -/
def innAfterStages (m : Match) (inp : BallInput) : Innings :=
  let rc := rcOf m inp
  let inn := { m.cur with extras := rc.extras }
  let w := applyWicket inn m.playerPerformances inp rc (mkBall inn inp rc)
  applyRunRate (applyCursor (applyLedger w.2.1 rc w.1) rc)

/-- The player performances after the wicket stage of a recordBall call. -/
def perfsAfter (m : Match) (inp : BallInput) : List PlayerPerformance :=
  let rc := rcOf m inp
  let inn := { m.cur with extras := rc.extras }
  (applyWicket inn m.playerPerformances inp rc (mkBall inn inp rc)).2.2


/-- Concrete settings used by the witness scenarios: 6 overs, 6 players per
team, 1-run wide, 1-run no-ball. -/
def settingsFixture : Settings := ⟨6, 6, 1, 1, true⟩

/-- A concrete in-progress innings with batsmen and bowler set, used by the
witness scenarios. -/
def inningsFixture : Innings :=
  { battingTeam := Team.teamA
    bowlingTeam := Team.teamB
    status := InningsStatus.inProgress
    totalRuns := 0
    totalWickets := 0
    totalOvers := 0
    totalBalls := 0
    extras := ⟨0, 0, 0, 0, 0⟩
    currentOver := 1
    currentBall := 0
    striker := some (PlayerId.guest "s1")
    nonStriker := some (PlayerId.guest "s2")
    currentBowler := some (PlayerId.guest "b1")
    balls := []
    fallOfWickets := []
    runRate := 0
    target := none }

/-- A concrete in-progress match used by the witness scenarios. -/
def matchFixture : Match :=
  { status := MatchStatus.inProgress
    settings := settingsFixture
    toss := some ⟨Team.teamA, TossDecision.bat⟩
    currentInnings := InningsSel.first
    teamA := ⟨"Alphas", [PlayerId.guest "s1", PlayerId.guest "s2"]⟩
    teamB := ⟨"Bravos", [PlayerId.guest "b1"]⟩
    first := inningsFixture
    second := initInnings Team.teamB Team.teamA
    result := none
    playerPerformances := [⟨PlayerId.guest "s1", Team.teamA, false, none⟩] }

/-- Witness fixture: the concrete match at the last ball of an over. -/
def matchFixtureOver : Match :=
  { matchFixture with first := { inningsFixture with currentBall := 5 } }

/-- Witness fixture: the concrete match still awaiting its toss. -/
def matchFixtureToss : Match :=
  { matchFixture with status := MatchStatus.toss }

/-- Witness fixture: the concrete match right after its toss. -/
def tossedFixture : Match :=
  (conductToss matchFixtureToss Team.teamA TossDecision.bat).toOption.getD
    matchFixtureToss

/-- Witness fixture: a completed scoreless first innings. -/
def completedFirstInnings : Innings :=
  { inningsFixture with status := InningsStatus.completed }

/-- Witness fixture: the concrete match chasing in the second innings. -/
def matchFixtureChase : Match :=
  { matchFixture with
      currentInnings := InningsSel.second
      first := completedFirstInnings
      second := inningsFixture }

/-- Witness fixture: the concrete match in the second innings with four
wickets already down and both totals scoreless. -/
def matchFixtureTie : Match :=
  { matchFixture with
      currentInnings := InningsSel.second
      first := completedFirstInnings
      second := { inningsFixture with totalWickets := 4 } }

/-- Witness input: a single run. -/
def oneInput : BallInput := ⟨Outcome.one, 0, false, none, none, none⟩

/-- Witness input: a wide with one additional run. -/
def wideInput : BallInput := ⟨Outcome.wide, 1, false, none, none, none⟩

/-- Witness input: a boundary four. -/
def fourInput : BallInput := ⟨Outcome.four, 0, false, none, none, none⟩

/-- Witness input: a bowled wicket without an explicit dismissed batter. -/
def wicketInput : BallInput :=
  ⟨Outcome.wicket, 0, false, some "bowled", none, none⟩

/-- Witness input: a bowled wicket naming the dismissed batter. -/
def wicketInputExplicit : BallInput :=
  ⟨Outcome.wicket, 0, false, some "bowled", some (PlayerId.guest "s1"), none⟩

/-- Witness fixture: the concrete match after one recorded wide. -/
def afterWideFixture : Match := applyBallCore matchFixture wideInput

/-- Witness fixture: the concrete match after a wide and its undo. -/
def afterWideUndoneFixture : Match :=
  (undoLastBall afterWideFixture).toOption.getD afterWideFixture

/-- Witness fixture: the tossed match after its opening batsmen are set. -/
def reachFixture1 : Match :=
  (setBatsmen tossedFixture (some (PlayerId.guest "s1"))
      (some (PlayerId.guest "s2"))).toOption.getD tossedFixture

/-- Witness fixture: the tossed match after its opening bowler is set. -/
def reachFixture2 : Match :=
  (setBowler reachFixture1 (some (PlayerId.guest "b1"))).toOption.getD
    reachFixture1

/-- Witness fixture: the tossed match after a recorded boundary four. -/
def reachFixture3 : Match :=
  (recordBall reachFixture2 fourInput).toOption.getD reachFixture2

/-- Witness fixture: the tossed match after the boundary four is undone. -/
def reachFixture4 : Match :=
  (undoLastBall reachFixture3).toOption.getD reachFixture3

end CricketBox

namespace CricketBox

/-- Writing back the active innings and reading it again yields that innings. -/
theorem cur_setCurrentInnings (m : Match) (inn : Innings) :
    (setCurrentInnings m inn).cur = inn := by
  cases h : m.currentInnings <;> simp [setCurrentInnings, Match.cur, h]

/-- Writing back the active innings keeps the selector. -/
theorem currentInnings_setCurrentInnings (m : Match) (inn : Innings) :
    (setCurrentInnings m inn).currentInnings = m.currentInnings := by
  cases h : m.currentInnings <;> simp [setCurrentInnings, h]

/-- Writing back the active innings keeps the match-level fields. -/
theorem matchFields_setCurrentInnings (m : Match) (inn : Innings) :
    (setCurrentInnings m inn).status = m.status ∧
    (setCurrentInnings m inn).settings = m.settings ∧
    (setCurrentInnings m inn).toss = m.toss ∧
    (setCurrentInnings m inn).result = m.result ∧
    (setCurrentInnings m inn).playerPerformances = m.playerPerformances := by
  cases h : m.currentInnings <;> simp [setCurrentInnings, h]

/-- Writing back the active innings keeps the other innings. -/
theorem otherInnings_setCurrentInnings (m : Match) (inn : Innings) :
    otherInnings (setCurrentInnings m inn) = otherInnings m := by
  cases h : m.currentInnings <;> simp [setCurrentInnings, otherInnings, h]

/-- A successful recordBall call is the scoring mutation, and certifies the
four preconditions of the source (matchController.js 450-467). -/
theorem recordBall_ok_elim (m : Match) (inp : BallInput) (m1 : Match)
    (h : recordBall m inp = Except.ok m1) :
    m1 = applyBallCore m inp ∧ m.status = MatchStatus.inProgress ∧
      m.cur.status = InningsStatus.inProgress ∧
      m.cur.striker ≠ none ∧ m.cur.currentBowler ≠ none := by
  unfold recordBall at h
  split at h
  · cases h
  · split at h
    · cases h
    · split at h
      · cases h
      · split at h
        · cases h
        · rename_i h1 h2 h3 h4
          refine ⟨(Except.ok.injEq _ _ ▸ h).symm, ?_, ?_, h3, h4⟩
          · exact not_not.mp h1
          · exact not_not.mp h2

end CricketBox

namespace CricketBox

/-- The dismissed batter of a wicket delivery: the explicitly supplied
identifier, defaulting to the current striker (matchController.js 555-561). -/
def defaultBatsmanOut (inn : Innings) (inp : BallInput) : Option PlayerId :=
  match inp.batsmanOut with
  | some p => some p
  | none => inn.striker

/-- Characterization of the wicket-handling stage. -/
theorem applyWicket_facts (inn : Innings) (perfs : List PlayerPerformance)
    (inp : BallInput) (rc : RunCalc) (ball : Ball) :
    (applyWicket inn perfs inp rc ball).1 =
      (if isWicketBall inp then
         { ball with
             isWicket := true
             wicket := some ⟨inp.dismissalType, defaultBatsmanOut inn inp, inp.fielder⟩ }
       else ball) ∧
    (applyWicket inn perfs inp rc ball).2.1 =
      (if isWicketBall inp then
         { inn with
             totalWickets := inn.totalWickets + 1
             fallOfWickets := inn.fallOfWickets ++
               [⟨inn.totalWickets + 1, inn.totalRuns + rc.totalRuns, inn.currentOver,
                 inn.currentBall + (if rc.isLegalDelivery then 1 else 0),
                 defaultBatsmanOut inn inp⟩] }
       else inn) ∧
    (applyWicket inn perfs inp rc ball).2.2 =
      (if isWicketBall inp then
         (match inp.batsmanOut with
          | some pid => markBatsmanOut perfs pid inp.dismissalType
          | none => perfs)
       else perfs) := by
  unfold applyWicket defaultBatsmanOut
  split <;> simp

/-- Characterization of the ledger-append stage. -/
theorem applyLedger_facts (inn : Innings) (rc : RunCalc) (ball : Ball) :
    applyLedger inn rc ball =
      { inn with
          balls := inn.balls ++ [ball]
          totalRuns := inn.totalRuns + rc.totalRuns
          extras :=
            { inn.extras with
                total := inn.extras.wides + inn.extras.noBalls +
                  inn.extras.byes + inn.extras.legByes } } := rfl

/-- The run-rate stage only rewrites runRate. -/
theorem applyRunRate_eq (inn : Innings) :
    applyRunRate inn = { inn with runRate := (applyRunRate inn).runRate } := rfl

/-- Characterization of the legal-delivery bookkeeping and strike rotation. -/
theorem applyCursor_facts (inn : Innings) (rc : RunCalc) :
    ((applyCursor inn rc).balls = inn.balls ∧
     (applyCursor inn rc).fallOfWickets = inn.fallOfWickets ∧
     (applyCursor inn rc).totalRuns = inn.totalRuns ∧
     (applyCursor inn rc).totalWickets = inn.totalWickets ∧
     (applyCursor inn rc).extras = inn.extras ∧
     (applyCursor inn rc).status = inn.status ∧
     (applyCursor inn rc).battingTeam = inn.battingTeam ∧
     (applyCursor inn rc).bowlingTeam = inn.bowlingTeam ∧
     (applyCursor inn rc).target = inn.target ∧
     (applyCursor inn rc).runRate = inn.runRate) ∧
    (rc.isLegalDelivery = false →
      (applyCursor inn rc).currentBall = inn.currentBall ∧
      (applyCursor inn rc).currentOver = inn.currentOver ∧
      (applyCursor inn rc).totalOvers = inn.totalOvers ∧
      (applyCursor inn rc).totalBalls = inn.totalBalls ∧
      (applyCursor inn rc).striker = inn.striker ∧
      (applyCursor inn rc).nonStriker = inn.nonStriker ∧
      (applyCursor inn rc).currentBowler = inn.currentBowler) ∧
    (rc.isLegalDelivery = true →
      (applyCursor inn rc).totalBalls = inn.totalBalls + 1 ∧
      (inn.currentBall + 1 < 6 →
        (applyCursor inn rc).currentBall = inn.currentBall + 1 ∧
        (applyCursor inn rc).currentOver = inn.currentOver ∧
        (applyCursor inn rc).totalOvers = inn.totalOvers ∧
        (applyCursor inn rc).currentBowler = inn.currentBowler ∧
        (applyCursor inn rc).striker =
          (if rc.batsmanRuns.tmod 2 == 1 then inn.nonStriker else inn.striker) ∧
        (applyCursor inn rc).nonStriker =
          (if rc.batsmanRuns.tmod 2 == 1 then inn.striker else inn.nonStriker)) ∧
      (6 ≤ inn.currentBall + 1 →
        (applyCursor inn rc).currentBall = 0 ∧
        (applyCursor inn rc).currentOver = inn.currentOver + 1 ∧
        (applyCursor inn rc).totalOvers = inn.totalOvers + 1 ∧
        (applyCursor inn rc).currentBowler = none ∧
        (applyCursor inn rc).striker =
          (if rc.batsmanRuns.tmod 2 == 1 then inn.striker else inn.nonStriker) ∧
        (applyCursor inn rc).nonStriker =
          (if rc.batsmanRuns.tmod 2 == 1 then inn.nonStriker else inn.striker))) := by
  cases hl : rc.isLegalDelivery
  · simp [applyCursor, ballsPerOver, hl]
  · by_cases hb : (6 : Int) ≤ inn.currentBall + 1
    · have hb2 : ¬(inn.currentBall + 1 < 6) := by omega
      cases ho : (rc.batsmanRuns.tmod 2 == 1) <;>
        simp [applyCursor, ballsPerOver, hl, ho, hb, hb2]
    · have hb2 : inn.currentBall + 1 < 6 := by omega
      cases ho : (rc.batsmanRuns.tmod 2 == 1) <;>
        simp [applyCursor, ballsPerOver, hl, ho, hb, hb2]

end CricketBox


namespace CricketBox

/-- determineResult reads only status, settings and the two innings. -/
theorem determineResult_congr (m m2 : Match)
    (h1 : m.status = m2.status) (h2 : m.settings = m2.settings)
    (h3 : m.first = m2.first) (h4 : m.second = m2.second) :
    determineResult m = determineResult m2 := by
  unfold determineResult
  rw [h1, h2, h3, h4]

/-- The wickets/overs completion check only rewrites the active innings'
status, the match status and result, and the second innings' target. -/
theorem checkInningsCompletion_frame (m : Match) :
    (checkInningsCompletion m).cur =
      { m.cur with status := (checkInningsCompletion m).cur.status } ∧
    (checkInningsCompletion m).currentInnings = m.currentInnings ∧
    (checkInningsCompletion m).settings = m.settings ∧
    (checkInningsCompletion m).toss = m.toss ∧
    (checkInningsCompletion m).playerPerformances = m.playerPerformances ∧
    (m.currentInnings = InningsSel.second →
      (checkInningsCompletion m).first = m.first) := by
  simp only [checkInningsCompletion]
  split
  · cases hsel : m.currentInnings <;>
      simp [setCurrentInnings, Match.cur, hsel]
  · simp [Match.cur]

/-- Status written by the wickets/overs completion check. -/
theorem checkInningsCompletion_curStatus (m : Match) :
    (checkInningsCompletion m).cur.status =
      (if m.settings.playersPerTeam - 1 ≤ m.cur.totalWickets ∨
          m.settings.overs ≤ m.cur.totalOvers
       then InningsStatus.completed else m.cur.status) := by
  simp only [checkInningsCompletion]
  split
  · cases hsel : m.currentInnings <;>
      simp [setCurrentInnings, Match.cur, hsel]
  · simp

/-- Effect of the wickets/overs completion check while the first innings is
active: innings break and target stamping; the second innings' status and the
result are untouched. -/
theorem checkInningsCompletion_first (m : Match)
    (hsel : m.currentInnings = InningsSel.first) :
    (checkInningsCompletion m).status =
      (if m.settings.playersPerTeam - 1 ≤ m.cur.totalWickets ∨
          m.settings.overs ≤ m.cur.totalOvers
       then MatchStatus.inningsBreak else m.status) ∧
    (checkInningsCompletion m).second.target =
      (if m.settings.playersPerTeam - 1 ≤ m.cur.totalWickets ∨
          m.settings.overs ≤ m.cur.totalOvers
       then some (m.cur.totalRuns + 1) else m.second.target) ∧
    (checkInningsCompletion m).second.status = m.second.status ∧
    (checkInningsCompletion m).result = m.result := by
  simp only [checkInningsCompletion]
  split
  · simp [setCurrentInnings, hsel]
  · simp

/-- Effect of the wickets/overs completion check while the second innings is
active: match completion and result computation. -/
theorem checkInningsCompletion_second (m : Match)
    (hsel : m.currentInnings = InningsSel.second) :
    (checkInningsCompletion m).status =
      (if m.settings.playersPerTeam - 1 ≤ m.cur.totalWickets ∨
          m.settings.overs ≤ m.cur.totalOvers
       then MatchStatus.completed else m.status) ∧
    (checkInningsCompletion m).result =
      (if m.settings.playersPerTeam - 1 ≤ m.cur.totalWickets ∨
          m.settings.overs ≤ m.cur.totalOvers
       then determineResult (checkInningsCompletion m) else m.result) := by
  simp only [checkInningsCompletion]
  split
  · refine ⟨by simp [setCurrentInnings, hsel], ?_⟩
    simp only [setCurrentInnings, hsel]
    exact determineResult_congr _ _ rfl rfl rfl rfl
  · simp

/-- The chase completion check only rewrites the active innings' status and
the match status and result, and never touches the first innings. -/
theorem checkChaseCompletion_frame (m : Match) :
    (checkChaseCompletion m).cur =
      { m.cur with status := (checkChaseCompletion m).cur.status } ∧
    (checkChaseCompletion m).currentInnings = m.currentInnings ∧
    (checkChaseCompletion m).settings = m.settings ∧
    (checkChaseCompletion m).toss = m.toss ∧
    (checkChaseCompletion m).playerPerformances = m.playerPerformances ∧
    (checkChaseCompletion m).first = m.first := by
  simp only [checkChaseCompletion]
  split
  · rename_i hcond
    obtain ⟨hsel, hrun⟩ := hcond
    simp [setCurrentInnings, Match.cur, hsel]
  · simp [Match.cur]

/-- Status written by the chase completion check. -/
theorem checkChaseCompletion_curStatus (m : Match) :
    (checkChaseCompletion m).cur.status =
      (if m.currentInnings = InningsSel.second ∧
          m.first.totalRuns + 1 ≤ m.cur.totalRuns
       then InningsStatus.completed else m.cur.status) := by
  simp only [checkChaseCompletion]
  split
  · rename_i hcond
    obtain ⟨hsel, hrun⟩ := hcond
    simp [setCurrentInnings, Match.cur, hsel, hrun]
  · simp

/-- Match-level effect of the chase completion check. -/
theorem checkChaseCompletion_matchLaw (m : Match) :
    (checkChaseCompletion m).status =
      (if m.currentInnings = InningsSel.second ∧
          m.first.totalRuns + 1 ≤ m.cur.totalRuns
       then MatchStatus.completed else m.status) ∧
    (checkChaseCompletion m).result =
      (if m.currentInnings = InningsSel.second ∧
          m.first.totalRuns + 1 ≤ m.cur.totalRuns
       then determineResult (checkChaseCompletion m) else m.result) := by
  simp only [checkChaseCompletion]
  split
  · rename_i hcond
    obtain ⟨hsel, hrun⟩ := hcond
    refine ⟨by simp [setCurrentInnings, hsel], ?_⟩
    simp only [setCurrentInnings, hsel]
    exact determineResult_congr _ _ rfl rfl rfl rfl
  · simp

end CricketBox

namespace CricketBox

/-- applyBallCore is the staged innings update followed by the two
completion checks. -/
theorem applyBallCore_eq (m : Match) (inp : BallInput) :
    applyBallCore m inp =
      checkChaseCompletion (checkInningsCompletion
        (setCurrentInnings { m with playerPerformances := perfsAfter m inp }
          (innAfterStages m inp))) := rfl

/-- The chase completion check is a no-op during the first innings. -/
theorem checkChaseCompletion_noop (m : Match)
    (hsel : m.currentInnings = InningsSel.first) :
    checkChaseCompletion m = m := by
  simp only [checkChaseCompletion]
  rw [if_neg]
  rintro ⟨h1, h2⟩
  rw [hsel] at h1
  cases h1

/-- All fields of the match after a recordBall mutation, other than the
statuses, the result and the second innings' target, in terms of the staged
innings update. -/
theorem applyBallCore_cur_fields (m : Match) (inp : BallInput) :
    (applyBallCore m inp).cur.balls = (innAfterStages m inp).balls ∧
    (applyBallCore m inp).cur.totalRuns = (innAfterStages m inp).totalRuns ∧
    (applyBallCore m inp).cur.totalWickets = (innAfterStages m inp).totalWickets ∧
    (applyBallCore m inp).cur.totalOvers = (innAfterStages m inp).totalOvers ∧
    (applyBallCore m inp).cur.totalBalls = (innAfterStages m inp).totalBalls ∧
    (applyBallCore m inp).cur.extras = (innAfterStages m inp).extras ∧
    (applyBallCore m inp).cur.currentOver = (innAfterStages m inp).currentOver ∧
    (applyBallCore m inp).cur.currentBall = (innAfterStages m inp).currentBall ∧
    (applyBallCore m inp).cur.striker = (innAfterStages m inp).striker ∧
    (applyBallCore m inp).cur.nonStriker = (innAfterStages m inp).nonStriker ∧
    (applyBallCore m inp).cur.currentBowler = (innAfterStages m inp).currentBowler ∧
    (applyBallCore m inp).cur.fallOfWickets = (innAfterStages m inp).fallOfWickets ∧
    (applyBallCore m inp).cur.battingTeam = (innAfterStages m inp).battingTeam ∧
    (applyBallCore m inp).cur.bowlingTeam = (innAfterStages m inp).bowlingTeam ∧
    (applyBallCore m inp).cur.target = (innAfterStages m inp).target ∧
    (applyBallCore m inp).currentInnings = m.currentInnings ∧
    (applyBallCore m inp).settings = m.settings ∧
    (applyBallCore m inp).toss = m.toss ∧
    (applyBallCore m inp).playerPerformances = perfsAfter m inp := by
  rw [applyBallCore_eq]
  have hcf := checkChaseCompletion_frame (checkInningsCompletion
    (setCurrentInnings { m with playerPerformances := perfsAfter m inp }
      (innAfterStages m inp)))
  have hif := checkInningsCompletion_frame
    (setCurrentInnings { m with playerPerformances := perfsAfter m inp }
      (innAfterStages m inp))
  have hsf := matchFields_setCurrentInnings
    { m with playerPerformances := perfsAfter m inp } (innAfterStages m inp)
  obtain ⟨st1, hc1⟩ : ∃ st, (checkChaseCompletion (checkInningsCompletion
      (setCurrentInnings { m with playerPerformances := perfsAfter m inp }
        (innAfterStages m inp)))).cur =
      { (checkInningsCompletion (setCurrentInnings
          { m with playerPerformances := perfsAfter m inp }
          (innAfterStages m inp))).cur with status := st } := ⟨_, hcf.1⟩
  obtain ⟨st2, hi1⟩ : ∃ st, (checkInningsCompletion (setCurrentInnings
      { m with playerPerformances := perfsAfter m inp }
      (innAfterStages m inp))).cur =
      { (setCurrentInnings { m with playerPerformances := perfsAfter m inp }
          (innAfterStages m inp)).cur with status := st } := ⟨_, hif.1⟩
  rw [hc1, hi1, cur_setCurrentInnings]
  refine ⟨rfl, rfl, rfl, rfl, rfl, rfl, rfl, rfl, rfl, rfl, rfl, rfl, rfl, rfl, rfl,
    ?_, ?_, ?_, ?_⟩
  · rw [hcf.2.1, hif.2.1, currentInnings_setCurrentInnings]
  · rw [hcf.2.2.1, hif.2.2.1, hsf.2.1]
  · rw [hcf.2.2.2.1, hif.2.2.2.1, hsf.2.2.1]
  · rw [hcf.2.2.2.2.1, hif.2.2.2.2.1, hsf.2.2.2.2]

end CricketBox

namespace CricketBox

/-- The appended ledger entry carries the computed run breakdown, legality
and boundary flags, the pre-update cursor position and the wicket detail with
the defaulted dismissed batter. -/
theorem ballOf_facts (m : Match) (inp : BallInput) :
    (ballOf m inp).outcome = inp.outcome ∧
    (ballOf m inp).runs = ⟨(rcOf m inp).batsmanRuns, (rcOf m inp).extraRuns,
      (rcOf m inp).totalRuns⟩ ∧
    (ballOf m inp).isLegalDelivery = (rcOf m inp).isLegalDelivery ∧
    (ballOf m inp).isBoundary = (rcOf m inp).isBoundary ∧
    (ballOf m inp).isWicket = isWicketBall inp ∧
    (ballOf m inp).wicket =
      (if isWicketBall inp then
         some ⟨inp.dismissalType, defaultBatsmanOut m.cur inp, inp.fielder⟩
       else none) ∧
    (ballOf m inp).overNumber = m.cur.currentOver ∧
    (ballOf m inp).ballNumber = m.cur.currentBall + 1 ∧
    (ballOf m inp).bowler = m.cur.currentBowler ∧
    (ballOf m inp).batsman = m.cur.striker ∧
    (ballOf m inp).nonStriker = m.cur.nonStriker := by
  cases hwk : isWicketBall inp <;>
    simp [ballOf, applyWicket, mkBall, defaultBatsmanOut, hwk] <;>
    simp [isWicketBall, Bool.or_eq_false_iff] at hwk <;>
    simp [hwk.1]

/-- The performance rows after a recordBall mutation: marked out only when an
explicit dismissed-batter identifier was supplied on a wicket delivery. -/
theorem perfsAfter_facts (m : Match) (inp : BallInput) :
    perfsAfter m inp =
      (if isWicketBall inp then
         (match inp.batsmanOut with
          | some pid => markBatsmanOut m.playerPerformances pid inp.dismissalType
          | none => m.playerPerformances)
       else m.playerPerformances) := by
  cases hwk : isWicketBall inp <;>
    simp [perfsAfter, applyWicket, hwk]

end CricketBox

namespace CricketBox

set_option maxHeartbeats 1000000

/-- Full characterization of the staged innings update of recordBall: ledger
append, totals, wickets and fall of wickets, extras, and the conditional
cursor / strike-rotation / bowler bookkeeping. -/
theorem innAfterStages_facts (m : Match) (inp : BallInput) :
    ((innAfterStages m inp).balls = m.cur.balls ++ [ballOf m inp] ∧
     (innAfterStages m inp).totalRuns = m.cur.totalRuns + (rcOf m inp).totalRuns ∧
     (innAfterStages m inp).totalWickets =
       m.cur.totalWickets + (if isWicketBall inp then 1 else 0) ∧
     (innAfterStages m inp).fallOfWickets = m.cur.fallOfWickets ++
       (if isWicketBall inp then
          [⟨m.cur.totalWickets + 1, m.cur.totalRuns + (rcOf m inp).totalRuns,
            m.cur.currentOver,
            m.cur.currentBall + (if (rcOf m inp).isLegalDelivery then 1 else 0),
            defaultBatsmanOut m.cur inp⟩]
        else []) ∧
     (innAfterStages m inp).extras =
       { (rcOf m inp).extras with
           total := (rcOf m inp).extras.wides + (rcOf m inp).extras.noBalls +
             (rcOf m inp).extras.byes + (rcOf m inp).extras.legByes } ∧
     (innAfterStages m inp).status = m.cur.status ∧
     (innAfterStages m inp).battingTeam = m.cur.battingTeam ∧
     (innAfterStages m inp).bowlingTeam = m.cur.bowlingTeam ∧
     (innAfterStages m inp).target = m.cur.target ∧
     (innAfterStages m inp).totalBalls =
       m.cur.totalBalls + (if (rcOf m inp).isLegalDelivery then 1 else 0)) ∧
    ((rcOf m inp).isLegalDelivery = false →
      (innAfterStages m inp).currentBall = m.cur.currentBall ∧
      (innAfterStages m inp).currentOver = m.cur.currentOver ∧
      (innAfterStages m inp).totalOvers = m.cur.totalOvers ∧
      (innAfterStages m inp).striker = m.cur.striker ∧
      (innAfterStages m inp).nonStriker = m.cur.nonStriker ∧
      (innAfterStages m inp).currentBowler = m.cur.currentBowler) ∧
    ((rcOf m inp).isLegalDelivery = true →
      (m.cur.currentBall + 1 < 6 →
        (innAfterStages m inp).currentBall = m.cur.currentBall + 1 ∧
        (innAfterStages m inp).currentOver = m.cur.currentOver ∧
        (innAfterStages m inp).totalOvers = m.cur.totalOvers ∧
        (innAfterStages m inp).currentBowler = m.cur.currentBowler ∧
        (innAfterStages m inp).striker =
          (if (rcOf m inp).batsmanRuns.tmod 2 == 1
           then m.cur.nonStriker else m.cur.striker) ∧
        (innAfterStages m inp).nonStriker =
          (if (rcOf m inp).batsmanRuns.tmod 2 == 1
           then m.cur.striker else m.cur.nonStriker)) ∧
      (6 ≤ m.cur.currentBall + 1 →
        (innAfterStages m inp).currentBall = 0 ∧
        (innAfterStages m inp).currentOver = m.cur.currentOver + 1 ∧
        (innAfterStages m inp).totalOvers = m.cur.totalOvers + 1 ∧
        (innAfterStages m inp).currentBowler = none ∧
        (innAfterStages m inp).striker =
          (if (rcOf m inp).batsmanRuns.tmod 2 == 1
           then m.cur.striker else m.cur.nonStriker) ∧
        (innAfterStages m inp).nonStriker =
          (if (rcOf m inp).batsmanRuns.tmod 2 == 1
           then m.cur.nonStriker else m.cur.striker))) := by
  cases hwk : isWicketBall inp <;>
    cases hl : (rcOf m inp).isLegalDelivery <;>
      cases ho : ((rcOf m inp).batsmanRuns.tmod 2 == 1) <;>
        by_cases hb : (6 : Int) ≤ m.cur.currentBall + 1 <;>
  first
    | (have hb2 : ¬(m.cur.currentBall + 1 < 6) := by omega
       simp [innAfterStages, ballOf, rcOf, applyRunRate, applyCursor,
         applyLedger, applyWicket, mkBall, defaultBatsmanOut, ballsPerOver,
         hwk, hl, ho, hb, hb2])
    | (have hb2 : m.cur.currentBall + 1 < 6 := by omega
       simp [innAfterStages, ballOf, rcOf, applyRunRate, applyCursor,
         applyLedger, applyWicket, mkBall, defaultBatsmanOut, ballsPerOver,
         hwk, hl, ho, hb, hb2])

end CricketBox

namespace CricketBox

/-- The outcome switch refines the authoritative table of the spec. -/
theorem switchOutcome_table (s : Settings) (ex : Extras) (o : Outcome) (r : Int) :
    ((switchOutcome s ex o r).batsmanRuns, (switchOutcome s ex o r).extraRuns,
     (switchOutcome s ex o r).isLegalDelivery, (switchOutcome s ex o r).isBoundary)
      = ballRunsSpec s o r := by
  cases o <;> simp [switchOutcome, ballRunsSpec]

/-- The outcome switch always satisfies totalRuns = batsmanRuns + extraRuns. -/
theorem switchOutcome_total (s : Settings) (ex : Extras) (o : Outcome) (r : Int) :
    (switchOutcome s ex o r).totalRuns =
      (switchOutcome s ex o r).batsmanRuns + (switchOutcome s ex o r).extraRuns := by
  cases o <;> simp [switchOutcome] <;> omega

/-- The outcome switch increments exactly the bucket matching the outcome,
by extraRuns. -/
theorem switchOutcome_extras (s : Settings) (ex : Extras) (o : Outcome) (r : Int) :
    (switchOutcome s ex o r).extras.wides = ex.wides +
      (if o = Outcome.wide then (switchOutcome s ex o r).extraRuns else 0) ∧
    (switchOutcome s ex o r).extras.noBalls = ex.noBalls +
      (if o = Outcome.noBall then (switchOutcome s ex o r).extraRuns else 0) ∧
    (switchOutcome s ex o r).extras.byes = ex.byes +
      (if o = Outcome.bye then (switchOutcome s ex o r).extraRuns else 0) ∧
    (switchOutcome s ex o r).extras.legByes = ex.legByes +
      (if o = Outcome.legBye then (switchOutcome s ex o r).extraRuns else 0) := by
  cases o <;> simp [switchOutcome]

/-- C3: for every outcome, recordBall computes the runs breakdown per the
authoritative table (dot 0/0 legal; 1-6 batsman runs with boundary exactly on
4 and 6; wide configuredWideRuns + runsParam as extras, illegal; no-ball
runsParam to the batsman plus configuredNoBallRuns extras, illegal; bye and
leg-bye runsParam-or-1 extras, legal; wicket 0/0 legal), with totalRuns =
batsmanRuns + extraRuns, the matching extras bucket incremented by extraRuns,
and no ball-cursor increment for illegal deliveries. -/
theorem run_breakdown_table (m : Match) (inp : BallInput) (m1 : Match)
    (h : recordBall m inp = Except.ok m1) :
    ∃ ball : Ball,
      m1.cur.balls = m.cur.balls ++ [ball] ∧
      (ball.runs.batsmanRuns, ball.runs.extraRuns, ball.isLegalDelivery,
        ball.isBoundary) = ballRunsSpec m.settings inp.outcome inp.runs ∧
      ball.runs.totalRuns = ball.runs.batsmanRuns + ball.runs.extraRuns ∧
      m1.cur.extras.wides = m.cur.extras.wides +
        (if inp.outcome = Outcome.wide then ball.runs.extraRuns else 0) ∧
      m1.cur.extras.noBalls = m.cur.extras.noBalls +
        (if inp.outcome = Outcome.noBall then ball.runs.extraRuns else 0) ∧
      m1.cur.extras.byes = m.cur.extras.byes +
        (if inp.outcome = Outcome.bye then ball.runs.extraRuns else 0) ∧
      m1.cur.extras.legByes = m.cur.extras.legByes +
        (if inp.outcome = Outcome.legBye then ball.runs.extraRuns else 0) ∧
      (ball.isLegalDelivery = false →
        m1.cur.currentBall = m.cur.currentBall ∧
        m1.cur.totalBalls = m.cur.totalBalls) := by
  obtain ⟨rfl, hs1, hs2, hs3, hs4⟩ := recordBall_ok_elim m inp m1 h
  obtain ⟨hb1, hb2, hb3, hb4, hb5, hb6, hb7, hb8, hb9, hb10, hb11⟩ :=
    ballOf_facts m inp
  obtain ⟨⟨ha1, ha2, ha3, ha4, ha5, ha6, ha7, ha8, ha9, ha10⟩, hil, hlg⟩ :=
    innAfterStages_facts m inp
  obtain ⟨hc1, hc2, hc3, hc4, hc5, hc6, hc7, hc8, hc9, hc10, hc11, hc12, hc13,
    hc14, hc15, hc16, hc17, hc18, hc19⟩ := applyBallCore_cur_fields m inp
  refine ⟨ballOf m inp, ?_, ?_, ?_, ?_, ?_, ?_, ?_, ?_⟩
  · rw [hc1, ha1]
  · rw [hb2, hb3, hb4]
    exact switchOutcome_table m.settings m.cur.extras inp.outcome inp.runs
  · rw [hb2]
    exact switchOutcome_total m.settings m.cur.extras inp.outcome inp.runs
  · rw [hc6, ha5, hb2]
    exact (switchOutcome_extras m.settings m.cur.extras inp.outcome inp.runs).1
  · rw [hc6, ha5, hb2]
    exact (switchOutcome_extras m.settings m.cur.extras inp.outcome inp.runs).2.1
  · rw [hc6, ha5, hb2]
    exact (switchOutcome_extras m.settings m.cur.extras inp.outcome inp.runs).2.2.1
  · rw [hc6, ha5, hb2]
    exact (switchOutcome_extras m.settings m.cur.extras inp.outcome inp.runs).2.2.2
  · intro hleg
    rw [hb3] at hleg
    refine ⟨?_, ?_⟩
    · rw [hc8, (hil hleg).1]
    · rw [hc5, ha10, hleg]
      simp

/-- Witness for C3: a wide with one extra run on a concrete match. -/
theorem run_breakdown_table_witness :
    ∃ ball : Ball,
      (applyBallCore matchFixture ⟨Outcome.wide, 1, false, none, none, none⟩).cur.balls
        = matchFixture.cur.balls ++ [ball] ∧
      (ball.runs.batsmanRuns, ball.runs.extraRuns, ball.isLegalDelivery,
        ball.isBoundary)
        = ballRunsSpec matchFixture.settings Outcome.wide 1 ∧
      ball.runs.totalRuns = ball.runs.batsmanRuns + ball.runs.extraRuns ∧
      (applyBallCore matchFixture ⟨Outcome.wide, 1, false, none, none, none⟩).cur.extras.wides
        = matchFixture.cur.extras.wides +
          (if Outcome.wide = Outcome.wide then ball.runs.extraRuns else 0) ∧
      (applyBallCore matchFixture ⟨Outcome.wide, 1, false, none, none, none⟩).cur.extras.noBalls
        = matchFixture.cur.extras.noBalls +
          (if Outcome.wide = Outcome.noBall then ball.runs.extraRuns else 0) ∧
      (applyBallCore matchFixture ⟨Outcome.wide, 1, false, none, none, none⟩).cur.extras.byes
        = matchFixture.cur.extras.byes +
          (if Outcome.wide = Outcome.bye then ball.runs.extraRuns else 0) ∧
      (applyBallCore matchFixture ⟨Outcome.wide, 1, false, none, none, none⟩).cur.extras.legByes
        = matchFixture.cur.extras.legByes +
          (if Outcome.wide = Outcome.legBye then ball.runs.extraRuns else 0) ∧
      (ball.isLegalDelivery = false →
        (applyBallCore matchFixture ⟨Outcome.wide, 1, false, none, none, none⟩).cur.currentBall
          = matchFixture.cur.currentBall ∧
        (applyBallCore matchFixture ⟨Outcome.wide, 1, false, none, none, none⟩).cur.totalBalls
          = matchFixture.cur.totalBalls) :=
  run_breakdown_table matchFixture ⟨Outcome.wide, 1, false, none, none, none⟩
    (applyBallCore matchFixture ⟨Outcome.wide, 1, false, none, none, none⟩)
    rfl

end CricketBox

namespace CricketBox

/-- C4: after the 6th legal delivery of an over (ball cursor at 5 before the
delivery) the over count increments by 1, the ball cursor resets to 0, the
striker and non-striker are swapped and the bowler slot is cleared, so that
any subsequent recordBall call without an explicit setBowler fails; on every
legal delivery with odd batsman runs the batsmen are swapped once more,
additively to the end-of-over swap. -/
theorem over_rollover_and_strike_rotation (m : Match) (inp : BallInput)
    (m1 : Match) (h : recordBall m inp = Except.ok m1)
    (hlegal : (rcOf m inp).isLegalDelivery = true) :
    (m.cur.currentBall = 5 →
      m1.cur.currentOver = m.cur.currentOver + 1 ∧
      m1.cur.totalOvers = m.cur.totalOvers + 1 ∧
      m1.cur.currentBall = 0 ∧
      m1.cur.currentBowler = none ∧
      m1.cur.striker = (if (rcOf m inp).batsmanRuns.tmod 2 == 1
        then m.cur.striker else m.cur.nonStriker) ∧
      m1.cur.nonStriker = (if (rcOf m inp).batsmanRuns.tmod 2 == 1
        then m.cur.nonStriker else m.cur.striker) ∧
      (∀ inp2 : BallInput, ∃ e, recordBall m1 inp2 = Except.error e)) ∧
    (m.cur.currentBall + 1 < 6 →
      m1.cur.currentBall = m.cur.currentBall + 1 ∧
      m1.cur.currentOver = m.cur.currentOver ∧
      m1.cur.currentBowler = m.cur.currentBowler ∧
      m1.cur.striker = (if (rcOf m inp).batsmanRuns.tmod 2 == 1
        then m.cur.nonStriker else m.cur.striker) ∧
      m1.cur.nonStriker = (if (rcOf m inp).batsmanRuns.tmod 2 == 1
        then m.cur.striker else m.cur.nonStriker)) := by
  obtain ⟨rfl, hs1, hs2, hs3, hs4⟩ := recordBall_ok_elim m inp m1 h
  obtain ⟨⟨ha1, ha2, ha3, ha4, ha5, ha6, ha7, ha8, ha9, ha10⟩, hil, hlg⟩ :=
    innAfterStages_facts m inp
  obtain ⟨hc1, hc2, hc3, hc4, hc5, hc6, hc7, hc8, hc9, hc10, hc11, hc12, hc13,
    hc14, hc15, hc16, hc17, hc18, hc19⟩ :=
    applyBallCore_cur_fields m inp
  constructor
  · intro hball5
    have hroll : (6 : Int) ≤ m.cur.currentBall + 1 := by omega
    obtain ⟨hr1, hr2, hr3, hr4, hr5, hr6⟩ := (hlg hlegal).2 hroll
    have hbowler : (applyBallCore m inp).cur.currentBowler = none := by
      rw [hc11, hr4]
    refine ⟨by rw [hc7, hr2], by rw [hc4, hr3], by rw [hc8, hr1],
      hbowler, by rw [hc9, hr5], by rw [hc10, hr6], ?_⟩
    intro inp2
    unfold recordBall
    repeat' split
    all_goals
      first
        | exact ⟨_, rfl⟩
        | (rename_i hx; exact absurd hbowler hx)
  · intro hsmall
    obtain ⟨hr1, hr2, hr3, hr4, hr5, hr6⟩ := (hlg hlegal).1 hsmall
    exact ⟨by rw [hc8, hr1], by rw [hc7, hr2], by rw [hc11, hr4],
      by rw [hc9, hr5], by rw [hc10, hr6]⟩

end CricketBox

namespace CricketBox

/-- Witness for C4: a single run off the 6th legal ball of an over on a
concrete match. -/
theorem over_rollover_and_strike_rotation_witness :
    (matchFixtureOver.cur.currentBall = 5 →
      (applyBallCore matchFixtureOver oneInput).cur.currentOver =
        matchFixtureOver.cur.currentOver + 1 ∧
      (applyBallCore matchFixtureOver oneInput).cur.totalOvers =
        matchFixtureOver.cur.totalOvers + 1 ∧
      (applyBallCore matchFixtureOver oneInput).cur.currentBall = 0 ∧
      (applyBallCore matchFixtureOver oneInput).cur.currentBowler = none ∧
      (applyBallCore matchFixtureOver oneInput).cur.striker =
        (if (rcOf matchFixtureOver oneInput).batsmanRuns.tmod 2 == 1
         then matchFixtureOver.cur.striker else matchFixtureOver.cur.nonStriker) ∧
      (applyBallCore matchFixtureOver oneInput).cur.nonStriker =
        (if (rcOf matchFixtureOver oneInput).batsmanRuns.tmod 2 == 1
         then matchFixtureOver.cur.nonStriker else matchFixtureOver.cur.striker) ∧
      (∀ inp2 : BallInput, ∃ e,
        recordBall (applyBallCore matchFixtureOver oneInput) inp2 =
          Except.error e)) ∧
    (matchFixtureOver.cur.currentBall + 1 < 6 →
      (applyBallCore matchFixtureOver oneInput).cur.currentBall =
        matchFixtureOver.cur.currentBall + 1 ∧
      (applyBallCore matchFixtureOver oneInput).cur.currentOver =
        matchFixtureOver.cur.currentOver ∧
      (applyBallCore matchFixtureOver oneInput).cur.currentBowler =
        matchFixtureOver.cur.currentBowler ∧
      (applyBallCore matchFixtureOver oneInput).cur.striker =
        (if (rcOf matchFixtureOver oneInput).batsmanRuns.tmod 2 == 1
         then matchFixtureOver.cur.nonStriker else matchFixtureOver.cur.striker) ∧
      (applyBallCore matchFixtureOver oneInput).cur.nonStriker =
        (if (rcOf matchFixtureOver oneInput).batsmanRuns.tmod 2 == 1
         then matchFixtureOver.cur.striker else matchFixtureOver.cur.nonStriker)) :=
  over_rollover_and_strike_rotation matchFixtureOver oneInput
    (applyBallCore matchFixtureOver oneInput) rfl (by decide)

end CricketBox

namespace CricketBox

/-- C7 (amended): a recorded wicket increments the wicket count by exactly
one, defaults the dismissed batter to the current striker unless an explicit
identifier is supplied, and appends one fall-of-wickets entry capturing the
post-delivery run total and the pre-update ball count plus this delivery if
legal; the dismissed batter's PlayerPerformance row is marked out with the
dismissal type only when an explicit identifier is supplied — when the batter
is defaulted to the striker, no performance row is updated. -/
theorem wicket_handling (m : Match) (inp : BallInput) (m1 : Match)
    (h : recordBall m inp = Except.ok m1) (hw : isWicketBall inp = true) :
    m1.cur.totalWickets = m.cur.totalWickets + 1 ∧
    m1.cur.balls = m.cur.balls ++ [ballOf m inp] ∧
    (ballOf m inp).isWicket = true ∧
    (ballOf m inp).wicket =
      some ⟨inp.dismissalType, defaultBatsmanOut m.cur inp, inp.fielder⟩ ∧
    defaultBatsmanOut m.cur inp =
      (match inp.batsmanOut with
       | some p => some p
       | none => m.cur.striker) ∧
    m1.cur.totalRuns = m.cur.totalRuns + (ballOf m inp).runs.totalRuns ∧
    m1.cur.fallOfWickets = m.cur.fallOfWickets ++
      [⟨m.cur.totalWickets + 1, m1.cur.totalRuns, m.cur.currentOver,
        m.cur.currentBall + (if (ballOf m inp).isLegalDelivery then 1 else 0),
        defaultBatsmanOut m.cur inp⟩] ∧
    m1.playerPerformances =
      (match inp.batsmanOut with
       | some pid => markBatsmanOut m.playerPerformances pid inp.dismissalType
       | none => m.playerPerformances) := by
  obtain ⟨rfl, hs1, hs2, hs3, hs4⟩ := recordBall_ok_elim m inp m1 h
  obtain ⟨hb1, hb2, hb3, hb4, hb5, hb6, hb7, hb8, hb9, hb10, hb11⟩ :=
    ballOf_facts m inp
  obtain ⟨⟨ha1, ha2, ha3, ha4, ha5, ha6, ha7, ha8, ha9, ha10⟩, hil, hlg⟩ :=
    innAfterStages_facts m inp
  obtain ⟨hc1, hc2, hc3, hc4, hc5, hc6, hc7, hc8, hc9, hc10, hc11, hc12, hc13,
    hc14, hc15, hc16, hc17, hc18, hc19⟩ :=
    applyBallCore_cur_fields m inp
  simp only [hw, if_true, if_pos] at ha3 ha4
  refine ⟨by rw [hc3, ha3], by rw [hc1, ha1], by rw [hb5, hw],
    by rw [hb6, if_pos hw], by simp [defaultBatsmanOut], by rw [hc2, ha2, hb2],
    ?_, ?_⟩
  · rw [hc12, ha4, hc2, ha2, hb3]
  · rw [hc19, perfsAfter_facts, if_pos hw]

/-- C7 counterexample: on a concrete match a wicket is recorded without an
explicit dismissed-batter identifier; the dismissed batter defaults to the
striker (guest s1) who has a PlayerPerformance row, the wicket count becomes
1, yet no PlayerPerformance row is marked out. -/
theorem wicket_perf_not_marked_counterexample :
    isWicketBall wicketInput = true ∧
    matchFixture.cur.striker = some (PlayerId.guest "s1") ∧
    (matchFixture.playerPerformances.filter
      (fun p => p.player == PlayerId.guest "s1")).length = 1 ∧
    (recordBall matchFixture wicketInput).toOption.map
      (fun m2 => m2.cur.totalWickets) = some 1 ∧
    (recordBall matchFixture wicketInput).toOption.map
      (fun m2 => m2.playerPerformances.all
        (fun p => p.battingIsOut == false)) = some true := by
  decide

/-- Witness for C7: a bowled wicket naming the dismissed batter explicitly,
on a concrete match. -/
theorem wicket_handling_witness :
    (applyBallCore matchFixture wicketInputExplicit).cur.totalWickets =
      matchFixture.cur.totalWickets + 1 ∧
    (applyBallCore matchFixture wicketInputExplicit).cur.balls =
      matchFixture.cur.balls ++ [ballOf matchFixture wicketInputExplicit] ∧
    (ballOf matchFixture wicketInputExplicit).isWicket = true ∧
    (ballOf matchFixture wicketInputExplicit).wicket =
      some ⟨wicketInputExplicit.dismissalType,
        defaultBatsmanOut matchFixture.cur wicketInputExplicit,
        wicketInputExplicit.fielder⟩ ∧
    defaultBatsmanOut matchFixture.cur wicketInputExplicit =
      (match wicketInputExplicit.batsmanOut with
       | some p => some p
       | none => matchFixture.cur.striker) ∧
    (applyBallCore matchFixture wicketInputExplicit).cur.totalRuns =
      matchFixture.cur.totalRuns +
        (ballOf matchFixture wicketInputExplicit).runs.totalRuns ∧
    (applyBallCore matchFixture wicketInputExplicit).cur.fallOfWickets =
      matchFixture.cur.fallOfWickets ++
        [⟨matchFixture.cur.totalWickets + 1,
          (applyBallCore matchFixture wicketInputExplicit).cur.totalRuns,
          matchFixture.cur.currentOver,
          matchFixture.cur.currentBall +
            (if (ballOf matchFixture wicketInputExplicit).isLegalDelivery
             then 1 else 0),
          defaultBatsmanOut matchFixture.cur wicketInputExplicit⟩] ∧
    (applyBallCore matchFixture wicketInputExplicit).playerPerformances =
      (match wicketInputExplicit.batsmanOut with
       | some pid => markBatsmanOut matchFixture.playerPerformances pid
           wicketInputExplicit.dismissalType
       | none => matchFixture.playerPerformances) :=
  wicket_handling matchFixture wicketInputExplicit
    (applyBallCore matchFixture wicketInputExplicit) rfl (by decide)

end CricketBox

namespace CricketBox

/-- C9: every precondition failure of the scoring operations — match or
innings not in progress, striker or bowler unset, empty ledger on undo —
returns a typed ValidationError; in this embedding the error paths return no
state at all, mirroring that every throw in the source precedes the first
mutation and nothing is persisted on failure. -/
theorem precondition_failures (m : Match) (inp : BallInput) :
    ((m.status ≠ MatchStatus.inProgress ∨
      m.cur.status ≠ InningsStatus.inProgress ∨
      m.cur.striker = none ∨ m.cur.currentBowler = none) →
      ∃ msg, recordBall m inp = Except.error (ScoringError.validationError msg)) ∧
    (m.cur.balls = [] →
      ∃ msg, undoLastBall m = Except.error (ScoringError.validationError msg)) := by
  constructor
  · intro hpre
    unfold recordBall
    by_cases h1 : m.status ≠ MatchStatus.inProgress
    · rw [if_pos h1]; exact ⟨_, rfl⟩
    · rw [if_neg h1]
      by_cases h2 : m.cur.status ≠ InningsStatus.inProgress
      · rw [if_pos h2]; exact ⟨_, rfl⟩
      · rw [if_neg h2]
        by_cases h3 : m.cur.striker = none
        · rw [if_pos h3]; exact ⟨_, rfl⟩
        · rw [if_neg h3]
          by_cases h4 : m.cur.currentBowler = none
          · rw [if_pos h4]; exact ⟨_, rfl⟩
          · rcases hpre with h | h | h | h <;> contradiction
  · intro hemp
    refine ⟨"No balls to undo", ?_⟩
    unfold undoLastBall
    simp only [hemp]
    rfl

/-- Witness for C9: scoring before the toss fails, undoing on an empty
ledger fails, both with a ValidationError, on concrete matches. -/
theorem precondition_failures_witness :
    (∃ msg, recordBall matchFixtureToss oneInput =
      Except.error (ScoringError.validationError msg)) ∧
    (∃ msg, undoLastBall matchFixture =
      Except.error (ScoringError.validationError msg)) :=
  ⟨(precondition_failures matchFixtureToss oneInput).1 (Or.inl (by decide)),
   (precondition_failures matchFixture oneInput).2 (by decide)⟩

/-- C8: conductToss succeeds exactly in TOSS status — deriving the batting
order from the decision (BAT: the winner bats first, BOWL: the opponent),
initializing both innings NOT_STARTED with zeroed totals and the correct
team assignments, selecting the first innings and moving the match
IN_PROGRESS; in any other status it fails with a ValidationError, and
scoring while the match is not IN_PROGRESS also fails with a
ValidationError. -/
theorem conduct_toss_spec (m : Match) (w : Team) (d : TossDecision) :
    (m.status = MatchStatus.toss →
      ∃ m1, conductToss m w d = Except.ok m1 ∧
        (let battingFirst := if d = TossDecision.bat then w
           else if w = Team.teamA then Team.teamB else Team.teamA
         let bowlingFirst := if battingFirst = Team.teamA then Team.teamB
           else Team.teamA
         m1.first = initInnings battingFirst bowlingFirst ∧
         m1.second = initInnings bowlingFirst battingFirst ∧
         m1.first.status = InningsStatus.notStarted ∧
         m1.second.status = InningsStatus.notStarted ∧
         m1.first.battingTeam = battingFirst ∧
         m1.first.bowlingTeam = bowlingFirst ∧
         m1.second.battingTeam = bowlingFirst ∧
         m1.second.bowlingTeam = battingFirst ∧
         m1.first.totalRuns = 0 ∧ m1.first.totalWickets = 0 ∧
         m1.first.totalOvers = 0 ∧ m1.first.totalBalls = 0 ∧
         m1.first.balls = [] ∧ m1.first.fallOfWickets = [] ∧
         m1.second.totalRuns = 0 ∧ m1.second.totalWickets = 0 ∧
         m1.second.totalOvers = 0 ∧ m1.second.totalBalls = 0 ∧
         m1.second.balls = [] ∧ m1.second.fallOfWickets = [] ∧
         m1.toss = some ⟨w, d⟩ ∧
         m1.currentInnings = InningsSel.first ∧
         m1.status = MatchStatus.inProgress)) ∧
    (m.status ≠ MatchStatus.toss →
      ∃ msg, conductToss m w d =
        Except.error (ScoringError.validationError msg)) ∧
    (m.status ≠ MatchStatus.inProgress →
      ∀ inp, ∃ msg, recordBall m inp =
        Except.error (ScoringError.validationError msg)) := by
  refine ⟨?_, ?_, ?_⟩
  · intro ht
    unfold conductToss
    rw [if_neg (not_not_intro ht)]
    refine ⟨_, rfl, ?_⟩
    exact ⟨rfl, rfl, rfl, rfl, rfl, rfl, rfl, rfl, rfl, rfl, rfl, rfl, rfl,
      rfl, rfl, rfl, rfl, rfl, rfl, rfl, rfl, rfl, rfl⟩
  · intro hne
    unfold conductToss
    rw [if_pos hne]
    exact ⟨_, rfl⟩
  · intro hne inp
    unfold recordBall
    rw [if_pos hne]
    exact ⟨_, rfl⟩

/-- Witness for C8: the concrete match awaiting its toss, won by team A
choosing to bat. -/
theorem conduct_toss_spec_witness :
    (∃ m1, conductToss matchFixtureToss Team.teamA TossDecision.bat =
      Except.ok m1 ∧
        (m1.first = initInnings Team.teamA Team.teamB ∧
         m1.second = initInnings Team.teamB Team.teamA ∧
         m1.first.status = InningsStatus.notStarted ∧
         m1.second.status = InningsStatus.notStarted ∧
         m1.first.battingTeam = Team.teamA ∧
         m1.first.bowlingTeam = Team.teamB ∧
         m1.second.battingTeam = Team.teamB ∧
         m1.second.bowlingTeam = Team.teamA ∧
         m1.first.totalRuns = 0 ∧ m1.first.totalWickets = 0 ∧
         m1.first.totalOvers = 0 ∧ m1.first.totalBalls = 0 ∧
         m1.first.balls = [] ∧ m1.first.fallOfWickets = [] ∧
         m1.second.totalRuns = 0 ∧ m1.second.totalWickets = 0 ∧
         m1.second.totalOvers = 0 ∧ m1.second.totalBalls = 0 ∧
         m1.second.balls = [] ∧ m1.second.fallOfWickets = [] ∧
         m1.toss = some ⟨Team.teamA, TossDecision.bat⟩ ∧
         m1.currentInnings = InningsSel.first ∧
         m1.status = MatchStatus.inProgress)) ∧
    (∃ msg, recordBall matchFixtureToss oneInput =
      Except.error (ScoringError.validationError msg)) :=
  ⟨(conduct_toss_spec matchFixtureToss Team.teamA TossDecision.bat).1 rfl,
   (conduct_toss_spec matchFixtureToss Team.teamA TossDecision.bat).2.2
     (by decide) oneInput⟩

end CricketBox

namespace CricketBox

/-- undoLastBall's innings reversal never touches the innings status, the
teams, the target, the run rate, or the batsmen and bowler slots. -/
theorem undoInnings_frame (s : Settings) (inn : Innings) (b : Ball) :
    (undoInnings s inn b).status = inn.status ∧
    (undoInnings s inn b).target = inn.target ∧
    (undoInnings s inn b).runRate = inn.runRate ∧
    (undoInnings s inn b).striker = inn.striker ∧
    (undoInnings s inn b).nonStriker = inn.nonStriker ∧
    (undoInnings s inn b).currentBowler = inn.currentBowler ∧
    (undoInnings s inn b).battingTeam = inn.battingTeam ∧
    (undoInnings s inn b).bowlingTeam = inn.bowlingTeam := by
  cases hl : b.isLegalDelivery <;> cases hw : b.isWicket <;>
    by_cases hb : inn.currentBall = 0 <;>
      cases ho : b.outcome <;>
        simp [undoInnings, ballsPerOver, hl, hw, hb, ho]

/-- Field-level characterization of undoLastBall's innings reversal. -/
theorem undoInnings_values (s : Settings) (inn : Innings) (b : Ball) :
    (undoInnings s inn b).balls = inn.balls.dropLast ∧
    (undoInnings s inn b).totalRuns = inn.totalRuns - b.runs.totalRuns ∧
    (undoInnings s inn b).totalWickets =
      inn.totalWickets - (if b.isWicket then 1 else 0) ∧
    (undoInnings s inn b).fallOfWickets =
      (if b.isWicket then inn.fallOfWickets.dropLast else inn.fallOfWickets) ∧
    (undoInnings s inn b).totalBalls =
      inn.totalBalls - (if b.isLegalDelivery then 1 else 0) ∧
    (b.isLegalDelivery = false →
      (undoInnings s inn b).currentBall = inn.currentBall ∧
      (undoInnings s inn b).currentOver = inn.currentOver ∧
      (undoInnings s inn b).totalOvers = inn.totalOvers) ∧
    (b.isLegalDelivery = true → inn.currentBall = 0 →
      (undoInnings s inn b).currentBall = 5 ∧
      (undoInnings s inn b).currentOver = inn.currentOver - 1 ∧
      (undoInnings s inn b).totalOvers = inn.totalOvers - 1) ∧
    (b.isLegalDelivery = true → inn.currentBall ≠ 0 →
      (undoInnings s inn b).currentBall = inn.currentBall - 1 ∧
      (undoInnings s inn b).currentOver = inn.currentOver ∧
      (undoInnings s inn b).totalOvers = inn.totalOvers) ∧
    (undoInnings s inn b).extras.wides = inn.extras.wides -
      (if b.outcome = Outcome.wide then b.runs.extraRuns else 0) ∧
    (undoInnings s inn b).extras.noBalls = inn.extras.noBalls -
      (if b.outcome = Outcome.noBall then s.noBallRuns else 0) ∧
    (undoInnings s inn b).extras.byes = inn.extras.byes -
      (if b.outcome = Outcome.bye then b.runs.extraRuns else 0) ∧
    (undoInnings s inn b).extras.legByes = inn.extras.legByes -
      (if b.outcome = Outcome.legBye then b.runs.extraRuns else 0) ∧
    (undoInnings s inn b).extras.total =
      (undoInnings s inn b).extras.wides + (undoInnings s inn b).extras.noBalls +
      (undoInnings s inn b).extras.byes + (undoInnings s inn b).extras.legByes := by
  cases hl : b.isLegalDelivery <;> cases hw : b.isWicket <;>
    by_cases hb : inn.currentBall = 0 <;>
      cases ho : b.outcome <;>
        simp [undoInnings, ballsPerOver, hl, hw, hb, ho]

end CricketBox

namespace CricketBox

/-- C10: undoLastBall succeeds on any match whose active innings has a
non-empty ledger — regardless of match status — and mutates only the ledger,
totals, cursor, wicket and extras bookkeeping of the active innings: the
innings status, match status, result, target, stored run rate, the batsmen
and bowler slots, and the entire other innings are unchanged; in particular,
undoing the delivery that completed an innings leaves the completion
statuses, the result and the stamped target in place. -/
theorem undo_frame (m : Match) (h : m.cur.balls ≠ []) :
    ∃ m1, undoLastBall m = Except.ok m1 ∧
      m1.status = m.status ∧
      m1.result = m.result ∧
      m1.settings = m.settings ∧
      m1.toss = m.toss ∧
      m1.currentInnings = m.currentInnings ∧
      m1.playerPerformances = m.playerPerformances ∧
      m1.cur.status = m.cur.status ∧
      m1.cur.target = m.cur.target ∧
      m1.cur.runRate = m.cur.runRate ∧
      m1.cur.striker = m.cur.striker ∧
      m1.cur.nonStriker = m.cur.nonStriker ∧
      m1.cur.currentBowler = m.cur.currentBowler ∧
      m1.cur.battingTeam = m.cur.battingTeam ∧
      m1.cur.bowlingTeam = m.cur.bowlingTeam ∧
      otherInnings m1 = otherInnings m := by
  obtain ⟨b, hb⟩ := Option.isSome_iff_exists.mp (List.getLast?_isSome.mpr h)
  obtain ⟨hm1, hm2, hm3, hm4, hm5⟩ := matchFields_setCurrentInnings m
    (undoInnings m.settings m.cur b)
  obtain ⟨hu1, hu2, hu3, hu4, hu5, hu6, hu7, hu8⟩ :=
    undoInnings_frame m.settings m.cur b
  refine ⟨setCurrentInnings m (undoInnings m.settings m.cur b), ?_,
    hm1, hm4, hm2, hm3, currentInnings_setCurrentInnings m _, hm5,
    ?_, ?_, ?_, ?_, ?_, ?_, ?_, ?_, otherInnings_setCurrentInnings m _⟩
  · unfold undoLastBall
    simp only [hb]
  · rw [cur_setCurrentInnings]; exact hu1
  · rw [cur_setCurrentInnings]; exact hu2
  · rw [cur_setCurrentInnings]; exact hu3
  · rw [cur_setCurrentInnings]; exact hu4
  · rw [cur_setCurrentInnings]; exact hu5
  · rw [cur_setCurrentInnings]; exact hu6
  · rw [cur_setCurrentInnings]; exact hu7
  · rw [cur_setCurrentInnings]; exact hu8

/-- Witness for C10: undoing the single recorded wide on a concrete match. -/
theorem undo_frame_witness :
    ∃ m1, undoLastBall afterWideFixture = Except.ok m1 ∧
      m1.status = afterWideFixture.status ∧
      m1.result = afterWideFixture.result ∧
      m1.settings = afterWideFixture.settings ∧
      m1.toss = afterWideFixture.toss ∧
      m1.currentInnings = afterWideFixture.currentInnings ∧
      m1.playerPerformances = afterWideFixture.playerPerformances ∧
      m1.cur.status = afterWideFixture.cur.status ∧
      m1.cur.target = afterWideFixture.cur.target ∧
      m1.cur.runRate = afterWideFixture.cur.runRate ∧
      m1.cur.striker = afterWideFixture.cur.striker ∧
      m1.cur.nonStriker = afterWideFixture.cur.nonStriker ∧
      m1.cur.currentBowler = afterWideFixture.cur.currentBowler ∧
      m1.cur.battingTeam = afterWideFixture.cur.battingTeam ∧
      m1.cur.bowlingTeam = afterWideFixture.cur.bowlingTeam ∧
      otherInnings m1 = otherInnings afterWideFixture :=
  undo_frame afterWideFixture (by decide)

end CricketBox

namespace CricketBox

/-- C2: recordBall followed by undoLastBall restores the run total, the
wicket count, the over/ball cursor (currentOver, currentBall, totalOvers,
totalBalls), the extras buckets and their total, and the fall-of-wickets
list to their pre-recordBall values, for every outcome and wicket
combination, from any state with a well-formed ball cursor (0 to 5) and a
consistent extras total; the striker/non-striker assignment and the
bowler-clearing at over boundaries are not reversed and are excluded. -/
theorem applyBall_undo_roundTrip (m m1 m2 : Match) (inp : BallInput)
    (hlow : 0 ≤ m.cur.currentBall) (hhigh : m.cur.currentBall < 6)
    (hex : extrasConsistent m.cur)
    (h1 : recordBall m inp = Except.ok m1)
    (h2 : undoLastBall m1 = Except.ok m2) :
    m2.cur.totalRuns = m.cur.totalRuns ∧
    m2.cur.totalWickets = m.cur.totalWickets ∧
    m2.cur.currentOver = m.cur.currentOver ∧
    m2.cur.currentBall = m.cur.currentBall ∧
    m2.cur.totalOvers = m.cur.totalOvers ∧
    m2.cur.totalBalls = m.cur.totalBalls ∧
    m2.cur.extras = m.cur.extras ∧
    m2.cur.fallOfWickets = m.cur.fallOfWickets := by
  obtain ⟨rfl, hs1, hs2, hs3, hs4⟩ := recordBall_ok_elim m inp m1 h1
  obtain ⟨hb1, hb2, hb3, hb4, hb5, hb6, hb7, hb8, hb9, hb10, hb11⟩ :=
    ballOf_facts m inp
  obtain ⟨⟨ha1, ha2, ha3, ha4, ha5, ha6, ha7, ha8, ha9, ha10⟩, hil, hlg⟩ :=
    innAfterStages_facts m inp
  obtain ⟨hc1, hc2, hc3, hc4, hc5, hc6, hc7, hc8, hc9, hc10, hc11, hc12, hc13,
    hc14, hc15, hc16, hc17, hc18, hc19⟩ := applyBallCore_cur_fields m inp
  have hlast : (applyBallCore m inp).cur.balls.getLast? = some (ballOf m inp) := by
    rw [hc1, ha1]
    exact List.getLast?_concat _
  unfold undoLastBall at h2
  simp only [hlast, Except.ok.injEq] at h2
  subst h2
  rw [cur_setCurrentInnings]
  obtain ⟨hu1, hu2, hu3, hu4, hu5, hu6, hu7, hu8, hu9, hu10, hu11, hu12, hu13⟩ :=
    undoInnings_values (applyBallCore m inp).settings (applyBallCore m inp).cur
      (ballOf m inp)
  have hbr : (ballOf m inp).runs.totalRuns = (rcOf m inp).totalRuns := by
    rw [hb2]
  have hbe : (ballOf m inp).runs.extraRuns = (rcOf m inp).extraRuns := by
    rw [hb2]
  have hAtr : (applyBallCore m inp).cur.totalRuns =
      m.cur.totalRuns + (rcOf m inp).totalRuns := hc2.trans ha2
  have hAtw : (applyBallCore m inp).cur.totalWickets =
      m.cur.totalWickets + (if isWicketBall inp then 1 else 0) := hc3.trans ha3
  have hAtb : (applyBallCore m inp).cur.totalBalls =
      m.cur.totalBalls + (if (rcOf m inp).isLegalDelivery then 1 else 0) :=
    hc5.trans ha10
  have hAex : (applyBallCore m inp).cur.extras =
      { (rcOf m inp).extras with
          total := (rcOf m inp).extras.wides + (rcOf m inp).extras.noBalls +
            (rcOf m inp).extras.byes + (rcOf m inp).extras.legByes } :=
    hc6.trans ha5
  have hWw : (undoInnings (applyBallCore m inp).settings (applyBallCore m inp).cur
      (ballOf m inp)).extras.wides = m.cur.extras.wides := by
    rw [hu9, hAex, hbe, hb1]
    have := (switchOutcome_extras m.settings m.cur.extras inp.outcome inp.runs).1
    by_cases how : inp.outcome = Outcome.wide <;>
      simp only [rcOf] at this ⊢ <;> rw [this] <;> simp [how]
  have hWn : (undoInnings (applyBallCore m inp).settings (applyBallCore m inp).cur
      (ballOf m inp)).extras.noBalls = m.cur.extras.noBalls := by
    rw [hu10, hAex, hb1, hc17]
    have := (switchOutcome_extras m.settings m.cur.extras inp.outcome inp.runs).2.1
    by_cases how : inp.outcome = Outcome.noBall
    · simp only [rcOf] at this ⊢
      rw [this]
      simp [how, switchOutcome]
    · simp only [rcOf] at this ⊢
      rw [this]
      simp [how]
  have hWb : (undoInnings (applyBallCore m inp).settings (applyBallCore m inp).cur
      (ballOf m inp)).extras.byes = m.cur.extras.byes := by
    rw [hu11, hAex, hbe, hb1]
    have := (switchOutcome_extras m.settings m.cur.extras inp.outcome inp.runs).2.2.1
    by_cases how : inp.outcome = Outcome.bye <;>
      simp only [rcOf] at this ⊢ <;> rw [this] <;> simp [how]
  have hWl : (undoInnings (applyBallCore m inp).settings (applyBallCore m inp).cur
      (ballOf m inp)).extras.legByes = m.cur.extras.legByes := by
    rw [hu12, hAex, hbe, hb1]
    have := (switchOutcome_extras m.settings m.cur.extras inp.outcome inp.runs).2.2.2
    by_cases how : inp.outcome = Outcome.legBye <;>
      simp only [rcOf] at this ⊢ <;> rw [this] <;> simp [how]
  refine ⟨?_, ?_, ?_, ?_, ?_, ?_, ?_, ?_⟩
  · rw [hu2, hAtr, hbr]
    omega
  · rw [hu3, hAtw, hb5]
    cases hwk : isWicketBall inp <;> simp <;> omega
  · cases hl : (rcOf m inp).isLegalDelivery
    · rw [(hu6 (hb3.trans hl)).2.1, hc7, (hil hl).2.1]
    · by_cases hroll : (6 : Int) ≤ m.cur.currentBall + 1
      · have hAcb : (applyBallCore m inp).cur.currentBall = 0 :=
          hc8.trans ((hlg hl).2 hroll).1
        rw [(hu7 (hb3.trans hl) hAcb).2.1, hc7, ((hlg hl).2 hroll).2.1]
        omega
      · have hsmall : m.cur.currentBall + 1 < 6 := by omega
        have hAcb : (applyBallCore m inp).cur.currentBall =
            m.cur.currentBall + 1 := hc8.trans ((hlg hl).1 hsmall).1
        have hne : (applyBallCore m inp).cur.currentBall ≠ 0 := by
          rw [hAcb]; omega
        rw [(hu8 (hb3.trans hl) hne).2.1, hc7, ((hlg hl).1 hsmall).2.1]
  · cases hl : (rcOf m inp).isLegalDelivery
    · rw [(hu6 (hb3.trans hl)).1, hc8, (hil hl).1]
    · by_cases hroll : (6 : Int) ≤ m.cur.currentBall + 1
      · have hAcb : (applyBallCore m inp).cur.currentBall = 0 :=
          hc8.trans ((hlg hl).2 hroll).1
        rw [(hu7 (hb3.trans hl) hAcb).1]
        omega
      · have hsmall : m.cur.currentBall + 1 < 6 := by omega
        have hAcb : (applyBallCore m inp).cur.currentBall =
            m.cur.currentBall + 1 := hc8.trans ((hlg hl).1 hsmall).1
        have hne : (applyBallCore m inp).cur.currentBall ≠ 0 := by
          rw [hAcb]; omega
        rw [(hu8 (hb3.trans hl) hne).1, hAcb]
        omega
  · cases hl : (rcOf m inp).isLegalDelivery
    · rw [(hu6 (hb3.trans hl)).2.2, hc4, (hil hl).2.2.1]
    · by_cases hroll : (6 : Int) ≤ m.cur.currentBall + 1
      · have hAcb : (applyBallCore m inp).cur.currentBall = 0 :=
          hc8.trans ((hlg hl).2 hroll).1
        rw [(hu7 (hb3.trans hl) hAcb).2.2, hc4, ((hlg hl).2 hroll).2.2.1]
        omega
      · have hsmall : m.cur.currentBall + 1 < 6 := by omega
        have hAcb : (applyBallCore m inp).cur.currentBall =
            m.cur.currentBall + 1 := hc8.trans ((hlg hl).1 hsmall).1
        have hne : (applyBallCore m inp).cur.currentBall ≠ 0 := by
          rw [hAcb]; omega
        rw [(hu8 (hb3.trans hl) hne).2.2, hc4, ((hlg hl).1 hsmall).2.2.1]
  · rw [hu5, hAtb, hb3]
    cases hl : (rcOf m inp).isLegalDelivery <;> simp <;> omega
  · have heta : (undoInnings (applyBallCore m inp).settings
        (applyBallCore m inp).cur (ballOf m inp)).extras =
        ⟨(undoInnings (applyBallCore m inp).settings (applyBallCore m inp).cur
            (ballOf m inp)).extras.wides,
         (undoInnings (applyBallCore m inp).settings (applyBallCore m inp).cur
            (ballOf m inp)).extras.noBalls,
         (undoInnings (applyBallCore m inp).settings (applyBallCore m inp).cur
            (ballOf m inp)).extras.byes,
         (undoInnings (applyBallCore m inp).settings (applyBallCore m inp).cur
            (ballOf m inp)).extras.legByes,
         (undoInnings (applyBallCore m inp).settings (applyBallCore m inp).cur
            (ballOf m inp)).extras.total⟩ := rfl
    rw [heta, hu13, hWw, hWn, hWb, hWl]
    rw [extrasConsistent] at hex
    rw [← hex]
  · rw [hu4, hb5]
    cases hwk : isWicketBall inp
    · simp only [Bool.false_eq_true, if_false]
      rw [hc12, ha4]
      simp [hwk]
    · simp only [if_true]
      rw [hc12, ha4]
      simp only [hwk, if_true]
      exact List.dropLast_concat

end CricketBox

namespace CricketBox

/-- Witness for C2: a wide with one extra run recorded and undone on a
concrete match. -/
theorem applyBall_undo_roundTrip_witness :
    afterWideUndoneFixture.cur.totalRuns = matchFixture.cur.totalRuns ∧
    afterWideUndoneFixture.cur.totalWickets = matchFixture.cur.totalWickets ∧
    afterWideUndoneFixture.cur.currentOver = matchFixture.cur.currentOver ∧
    afterWideUndoneFixture.cur.currentBall = matchFixture.cur.currentBall ∧
    afterWideUndoneFixture.cur.totalOvers = matchFixture.cur.totalOvers ∧
    afterWideUndoneFixture.cur.totalBalls = matchFixture.cur.totalBalls ∧
    afterWideUndoneFixture.cur.extras = matchFixture.cur.extras ∧
    afterWideUndoneFixture.cur.fallOfWickets = matchFixture.cur.fallOfWickets :=
  applyBall_undo_roundTrip matchFixture afterWideFixture afterWideUndoneFixture
    wideInput (by decide) (by decide) (by unfold extrasConsistent; decide) rfl rfl

end CricketBox

namespace CricketBox

/-- Status of the active innings after a recordBall mutation, combining the
wickets/overs check and the chase check. -/
theorem applyBallCore_curStatus (m : Match) (inp : BallInput)
    (hst : m.cur.status = InningsStatus.inProgress) :
    (applyBallCore m inp).cur.status =
      (if m.settings.playersPerTeam - 1 ≤ (innAfterStages m inp).totalWickets ∨
          m.settings.overs ≤ (innAfterStages m inp).totalOvers ∨
          (m.currentInnings = InningsSel.second ∧
            m.first.totalRuns + 1 ≤ (innAfterStages m inp).totalRuns)
       then InningsStatus.completed else InningsStatus.inProgress) := by
  obtain ⟨⟨ha1, ha2, ha3, ha4, ha5, ha6, ha7, ha8, ha9, ha10⟩, hil, hlg⟩ :=
    innAfterStages_facts m inp
  rw [applyBallCore_eq]
  set L := setCurrentInnings { m with playerPerformances := perfsAfter m inp }
    (innAfterStages m inp) with hLdef
  have hLcur : L.cur = innAfterStages m inp := cur_setCurrentInnings _ _
  have hLsel : L.currentInnings = m.currentInnings :=
    currentInnings_setCurrentInnings _ _
  have hLset : L.settings = m.settings :=
    (matchFields_setCurrentInnings _ _).2.1
  have hKframe := checkInningsCompletion_frame L
  have hKsel : (checkInningsCompletion L).currentInnings = m.currentInnings :=
    (hKframe.2.1).trans hLsel
  have hKtr : (checkInningsCompletion L).cur.totalRuns =
      (innAfterStages m inp).totalRuns := by
    rw [hKframe.1, hLcur]
  have hKst : (checkInningsCompletion L).cur.status =
      (if m.settings.playersPerTeam - 1 ≤ (innAfterStages m inp).totalWickets ∨
          m.settings.overs ≤ (innAfterStages m inp).totalOvers
       then InningsStatus.completed else InningsStatus.inProgress) := by
    rw [checkInningsCompletion_curStatus, hLcur, hLset, ha6, hst]
  rw [checkChaseCompletion_curStatus, hKsel, hKtr, hKst]
  cases hsel : m.currentInnings
  · by_cases hW : m.settings.playersPerTeam - 1 ≤
        (innAfterStages m inp).totalWickets ∨
        m.settings.overs ≤ (innAfterStages m inp).totalOvers <;>
      simp [hW]
  · have hKfirst : (checkInningsCompletion L).first = m.first := by
      rw [hKframe.2.2.2.2.2 (hLsel.trans hsel)]
      simp [hLdef, setCurrentInnings, hsel]
    rw [hKfirst]
    by_cases hW : m.settings.playersPerTeam - 1 ≤
        (innAfterStages m inp).totalWickets ∨
        m.settings.overs ≤ (innAfterStages m inp).totalOvers <;>
      by_cases hC : m.first.totalRuns + 1 ≤ (innAfterStages m inp).totalRuns <;>
        simp [hW, hC]

end CricketBox

namespace CricketBox

/-- Match-level effect of a recordBall mutation during the first innings:
innings break and target stamping on completion, second innings untouched
otherwise. -/
theorem applyBallCore_first_effects (m : Match) (inp : BallInput)
    (hsel : m.currentInnings = InningsSel.first) :
    (applyBallCore m inp).second.status = m.second.status ∧
    (applyBallCore m inp).status =
      (if m.settings.playersPerTeam - 1 ≤ (innAfterStages m inp).totalWickets ∨
          m.settings.overs ≤ (innAfterStages m inp).totalOvers
       then MatchStatus.inningsBreak else m.status) ∧
    (applyBallCore m inp).second.target =
      (if m.settings.playersPerTeam - 1 ≤ (innAfterStages m inp).totalWickets ∨
          m.settings.overs ≤ (innAfterStages m inp).totalOvers
       then some ((innAfterStages m inp).totalRuns + 1)
       else m.second.target) := by
  rw [applyBallCore_eq]
  set L := setCurrentInnings { m with playerPerformances := perfsAfter m inp }
    (innAfterStages m inp) with hLdef
  have hLcur : L.cur = innAfterStages m inp := cur_setCurrentInnings _ _
  have hLsel : L.currentInnings = InningsSel.first :=
    (currentInnings_setCurrentInnings _ _).trans hsel
  have hKsel : (checkInningsCompletion L).currentInnings = InningsSel.first :=
    ((checkInningsCompletion_frame L).2.1).trans hLsel
  rw [checkChaseCompletion_noop _ hKsel]
  have hKf := checkInningsCompletion_first L hLsel
  have hLst : L.status = m.status := (matchFields_setCurrentInnings _ _).1
  have hLsettings : L.settings = m.settings :=
    (matchFields_setCurrentInnings _ _).2.1
  have hLsecond : L.second = m.second := by
    simp [hLdef, setCurrentInnings, hsel]
  refine ⟨?_, ?_, ?_⟩
  · rw [hKf.2.2.1, hLsecond]
  · rw [hKf.1, hLcur, hLsettings, hLst]
  · rw [hKf.2.1, hLcur, hLsettings, hLsecond]

/-- C5: after a successful recordBall call the active innings is COMPLETED
exactly when wickets fallen reach playersPerTeam − 1, or overs bowled reach
the configured overs, or — in the second innings only — runs reach the
first-innings runs + 1; completing the first innings moves the match to
INNINGS_BREAK and stamps the second innings' target as the completed
innings' runs + 1 while leaving the second innings' status (NOT_STARTED)
untouched, and only an explicit startSecondInnings call — valid exactly in
INNINGS_BREAK — flips the selector to the second innings and the match
status back to IN_PROGRESS. -/
theorem innings_completion_law (m : Match) (inp : BallInput) (m1 : Match)
    (h : recordBall m inp = Except.ok m1) :
    (m1.cur.status = InningsStatus.completed ↔
      (m.settings.playersPerTeam - 1 ≤ m1.cur.totalWickets ∨
       m.settings.overs ≤ m1.cur.totalOvers ∨
       (m.currentInnings = InningsSel.second ∧
        m.first.totalRuns + 1 ≤ m1.cur.totalRuns))) ∧
    (m.currentInnings = InningsSel.first →
      m1.second.status = m.second.status ∧
      (m1.cur.status = InningsStatus.completed →
        m1.status = MatchStatus.inningsBreak ∧
        m1.second.target = some (m1.cur.totalRuns + 1)) ∧
      (m1.cur.status ≠ InningsStatus.completed →
        m1.status = m.status ∧ m1.second.target = m.second.target)) ∧
    (∀ m2, startSecondInnings m1 = Except.ok m2 →
      m2.currentInnings = InningsSel.second ∧
      m2.status = MatchStatus.inProgress ∧
      m2.second.status = InningsStatus.notStarted) ∧
    (m1.status ≠ MatchStatus.inningsBreak →
      ∃ msg, startSecondInnings m1 =
        Except.error (ScoringError.validationError msg)) := by
  obtain ⟨rfl, hs1, hs2, hs3, hs4⟩ := recordBall_ok_elim m inp m1 h
  obtain ⟨hc1, hc2, hc3, hc4, hc5, hc6, hc7, hc8, hc9, hc10, hc11, hc12, hc13,
    hc14, hc15, hc16, hc17, hc18, hc19⟩ := applyBallCore_cur_fields m inp
  have hstat := applyBallCore_curStatus m inp hs2
  refine ⟨?_, ?_, ?_, ?_⟩
  · rw [hc3, hc4, hc2, hstat]
    by_cases hcond : m.settings.playersPerTeam - 1 ≤
        (innAfterStages m inp).totalWickets ∨
        m.settings.overs ≤ (innAfterStages m inp).totalOvers ∨
        (m.currentInnings = InningsSel.second ∧
          m.first.totalRuns + 1 ≤ (innAfterStages m inp).totalRuns)
    · rw [if_pos hcond]
      exact iff_of_true rfl hcond
    · rw [if_neg hcond]
      exact iff_of_false (by decide) hcond
  · intro hsel
    obtain ⟨hf1, hf2, hf3⟩ := applyBallCore_first_effects m inp hsel
    refine ⟨hf1, ?_, ?_⟩
    · intro hcc
      rw [hstat] at hcc
      by_cases hcond : m.settings.playersPerTeam - 1 ≤
          (innAfterStages m inp).totalWickets ∨
          m.settings.overs ≤ (innAfterStages m inp).totalOvers ∨
          (m.currentInnings = InningsSel.second ∧
            m.first.totalRuns + 1 ≤ (innAfterStages m inp).totalRuns)
      · have hWO : m.settings.playersPerTeam - 1 ≤
            (innAfterStages m inp).totalWickets ∨
            m.settings.overs ≤ (innAfterStages m inp).totalOvers := by
          rcases hcond with hw | ho | ⟨h1, h2⟩
          · exact Or.inl hw
          · exact Or.inr ho
          · rw [hsel] at h1; cases h1
        refine ⟨by rw [hf2, if_pos hWO], ?_⟩
        rw [hc2, hf3, if_pos hWO]
      · rw [if_neg hcond] at hcc
        cases hcc
    · intro hncc
      have hWO : ¬(m.settings.playersPerTeam - 1 ≤
          (innAfterStages m inp).totalWickets ∨
          m.settings.overs ≤ (innAfterStages m inp).totalOvers) := by
        intro hwo
        apply hncc
        rw [hstat, if_pos (hwo.elim Or.inl (fun hx => Or.inr (Or.inl hx)))]
      exact ⟨by rw [hf2, if_neg hWO], by rw [hf3, if_neg hWO]⟩
  · intro m2 hok
    unfold startSecondInnings at hok
    split at hok
    · cases hok
    · simp only [Except.ok.injEq] at hok
      subst hok
      exact ⟨rfl, rfl, rfl⟩
  · intro hne
    unfold startSecondInnings
    rw [if_pos hne]
    exact ⟨_, rfl⟩

end CricketBox

namespace CricketBox

/-- Witness for C5: a single run on a concrete in-progress first innings. -/
theorem innings_completion_law_witness :
    ((applyBallCore matchFixture oneInput).cur.status = InningsStatus.completed ↔
      (matchFixture.settings.playersPerTeam - 1 ≤
        (applyBallCore matchFixture oneInput).cur.totalWickets ∨
       matchFixture.settings.overs ≤
        (applyBallCore matchFixture oneInput).cur.totalOvers ∨
       (matchFixture.currentInnings = InningsSel.second ∧
        matchFixture.first.totalRuns + 1 ≤
          (applyBallCore matchFixture oneInput).cur.totalRuns))) ∧
    (matchFixture.currentInnings = InningsSel.first →
      (applyBallCore matchFixture oneInput).second.status =
        matchFixture.second.status ∧
      ((applyBallCore matchFixture oneInput).cur.status =
          InningsStatus.completed →
        (applyBallCore matchFixture oneInput).status =
          MatchStatus.inningsBreak ∧
        (applyBallCore matchFixture oneInput).second.target =
          some ((applyBallCore matchFixture oneInput).cur.totalRuns + 1)) ∧
      ((applyBallCore matchFixture oneInput).cur.status ≠
          InningsStatus.completed →
        (applyBallCore matchFixture oneInput).status = matchFixture.status ∧
        (applyBallCore matchFixture oneInput).second.target =
          matchFixture.second.target)) ∧
    (∀ m2, startSecondInnings (applyBallCore matchFixture oneInput) =
        Except.ok m2 →
      m2.currentInnings = InningsSel.second ∧
      m2.status = MatchStatus.inProgress ∧
      m2.second.status = InningsStatus.notStarted) ∧
    ((applyBallCore matchFixture oneInput).status ≠ MatchStatus.inningsBreak →
      ∃ msg, startSecondInnings (applyBallCore matchFixture oneInput) =
        Except.error (ScoringError.validationError msg)) :=
  innings_completion_law matchFixture oneInput
    (applyBallCore matchFixture oneInput) rfl

end CricketBox

namespace CricketBox

/-- C6: during the second innings, reaching first-innings runs + 1 completes
the match immediately (also mid-over), exhausting the wickets
(playersPerTeam − 1) or the allotted overs also completes the match, and
whenever the match completes the stored result follows determineResult: more
second-innings runs — the second-batting team wins by playersPerTeam − 1 −
secondInnings.wickets wickets; more first-innings runs — the first-batting
team wins by the run difference; equal totals — a tie with no winner. -/
theorem chase_and_result (m : Match) (inp : BallInput) (m1 : Match)
    (h : recordBall m inp = Except.ok m1)
    (hsel : m.currentInnings = InningsSel.second) :
    m1.first = m.first ∧
    (m.first.totalRuns + 1 ≤ m1.second.totalRuns →
      m1.status = MatchStatus.completed) ∧
    (m.settings.playersPerTeam - 1 ≤ m1.second.totalWickets ∨
        m.settings.overs ≤ m1.second.totalOvers →
      m1.status = MatchStatus.completed) ∧
    (m1.status = MatchStatus.completed →
      (m1.first.totalRuns < m1.second.totalRuns →
        m1.result = some ⟨some m1.second.battingTeam,
          (if m1.second.battingTeam = Team.teamA then ResultType.teamAWon
           else ResultType.teamBWon),
          some (WinMargin.wickets
            (m1.settings.playersPerTeam - 1 - m1.second.totalWickets))⟩) ∧
      (m1.second.totalRuns < m1.first.totalRuns →
        m1.result = some ⟨some m1.first.battingTeam,
          (if m1.first.battingTeam = Team.teamA then ResultType.teamAWon
           else ResultType.teamBWon),
          some (WinMargin.runs (m1.first.totalRuns - m1.second.totalRuns))⟩) ∧
      (m1.first.totalRuns = m1.second.totalRuns →
        m1.result = some ⟨none, ResultType.tie, none⟩)) := by
  obtain ⟨rfl, hs1, hs2, hs3, hs4⟩ := recordBall_ok_elim m inp m1 h
  obtain ⟨hc1, hc2, hc3, hc4, hc5, hc6, hc7, hc8, hc9, hc10, hc11, hc12, hc13,
    hc14, hc15, hc16, hc17, hc18, hc19⟩ := applyBallCore_cur_fields m inp
  have hm1cur : (applyBallCore m inp).cur = (applyBallCore m inp).second := by
    unfold Match.cur
    rw [hc16, hsel]
  have hLsel : (setCurrentInnings
      { m with playerPerformances := perfsAfter m inp }
      (innAfterStages m inp)).currentInnings = InningsSel.second :=
    (currentInnings_setCurrentInnings _ _).trans hsel
  have hLcur : (setCurrentInnings
      { m with playerPerformances := perfsAfter m inp }
      (innAfterStages m inp)).cur = innAfterStages m inp :=
    cur_setCurrentInnings _ _
  have hLfirst : (setCurrentInnings
      { m with playerPerformances := perfsAfter m inp }
      (innAfterStages m inp)).first = m.first := by
    simp [setCurrentInnings, hsel]
  have hLstatus : (setCurrentInnings
      { m with playerPerformances := perfsAfter m inp }
      (innAfterStages m inp)).status = m.status :=
    (matchFields_setCurrentInnings _ _).1
  have hKframe := checkInningsCompletion_frame (setCurrentInnings
    { m with playerPerformances := perfsAfter m inp } (innAfterStages m inp))
  have hKsel : (checkInningsCompletion (setCurrentInnings
      { m with playerPerformances := perfsAfter m inp }
      (innAfterStages m inp))).currentInnings = InningsSel.second :=
    (hKframe.2.1).trans hLsel
  have hKfirst : (checkInningsCompletion (setCurrentInnings
      { m with playerPerformances := perfsAfter m inp }
      (innAfterStages m inp))).first = m.first :=
    (hKframe.2.2.2.2.2 hLsel).trans hLfirst
  have hKcurtr : (checkInningsCompletion (setCurrentInnings
      { m with playerPerformances := perfsAfter m inp }
      (innAfterStages m inp))).cur.totalRuns =
      (innAfterStages m inp).totalRuns := by
    rw [hKframe.1, hLcur]
  have hKlaw := checkInningsCompletion_second (setCurrentInnings
    { m with playerPerformances := perfsAfter m inp } (innAfterStages m inp))
    hLsel
  have hchLaw := checkChaseCompletion_matchLaw (checkInningsCompletion
    (setCurrentInnings { m with playerPerformances := perfsAfter m inp }
      (innAfterStages m inp)))
  have hfirstEq : (applyBallCore m inp).first = m.first := by
    rw [applyBallCore_eq]
    rw [(checkChaseCompletion_frame _).2.2.2.2.2]
    exact hKfirst
  have hsecondtr : (applyBallCore m inp).second.totalRuns =
      (innAfterStages m inp).totalRuns := by
    rw [← hm1cur]
    exact hc2
  have hsecondtw : (applyBallCore m inp).second.totalWickets =
      (innAfterStages m inp).totalWickets := by
    rw [← hm1cur]
    exact hc3
  have hsecondto : (applyBallCore m inp).second.totalOvers =
      (innAfterStages m inp).totalOvers := by
    rw [← hm1cur]
    exact hc4
  have hLsettings : (setCurrentInnings
      { m with playerPerformances := perfsAfter m inp }
      (innAfterStages m inp)).settings = m.settings :=
    (matchFields_setCurrentInnings _ _).2.1
  refine ⟨hfirstEq, ?_, ?_, ?_⟩
  · intro hch
    rw [hsecondtr] at hch
    rw [applyBallCore_eq, hchLaw.1, if_pos ⟨hKsel, by rw [hKfirst, hKcurtr]; exact hch⟩]
  · intro hx
    rw [hsecondtw, hsecondto] at hx
    have hcond : (setCurrentInnings
        { m with playerPerformances := perfsAfter m inp }
        (innAfterStages m inp)).settings.playersPerTeam - 1 ≤
        (setCurrentInnings { m with playerPerformances := perfsAfter m inp }
          (innAfterStages m inp)).cur.totalWickets ∨
        (setCurrentInnings { m with playerPerformances := perfsAfter m inp }
          (innAfterStages m inp)).settings.overs ≤
        (setCurrentInnings { m with playerPerformances := perfsAfter m inp }
          (innAfterStages m inp)).cur.totalOvers := by
      rw [hLsettings, hLcur]
      exact hx
    rw [applyBallCore_eq]
    by_cases hcc : (checkInningsCompletion (setCurrentInnings
        { m with playerPerformances := perfsAfter m inp }
        (innAfterStages m inp))).currentInnings = InningsSel.second ∧
        (checkInningsCompletion (setCurrentInnings
          { m with playerPerformances := perfsAfter m inp }
          (innAfterStages m inp))).first.totalRuns + 1 ≤
        (checkInningsCompletion (setCurrentInnings
          { m with playerPerformances := perfsAfter m inp }
          (innAfterStages m inp))).cur.totalRuns
    · rw [hchLaw.1, if_pos hcc]
    · rw [hchLaw.1, if_neg hcc, hKlaw.1, if_pos hcond]
  · intro hcompleted
    have hres : (applyBallCore m inp).result =
        determineResult (applyBallCore m inp) := by
      by_cases hcc : (checkInningsCompletion (setCurrentInnings
          { m with playerPerformances := perfsAfter m inp }
          (innAfterStages m inp))).currentInnings = InningsSel.second ∧
          (checkInningsCompletion (setCurrentInnings
            { m with playerPerformances := perfsAfter m inp }
            (innAfterStages m inp))).first.totalRuns + 1 ≤
          (checkInningsCompletion (setCurrentInnings
            { m with playerPerformances := perfsAfter m inp }
            (innAfterStages m inp))).cur.totalRuns
      · rw [applyBallCore_eq, hchLaw.2, if_pos hcc]
      · have hfix : checkChaseCompletion (checkInningsCompletion
            (setCurrentInnings { m with playerPerformances := perfsAfter m inp }
              (innAfterStages m inp))) =
            checkInningsCompletion (setCurrentInnings
              { m with playerPerformances := perfsAfter m inp }
              (innAfterStages m inp)) := by
          simp only [checkChaseCompletion]
          rw [if_neg hcc]
        rw [applyBallCore_eq, hfix] at hcompleted ⊢
        by_cases hwo : (setCurrentInnings
            { m with playerPerformances := perfsAfter m inp }
            (innAfterStages m inp)).settings.playersPerTeam - 1 ≤
            (setCurrentInnings { m with playerPerformances := perfsAfter m inp }
              (innAfterStages m inp)).cur.totalWickets ∨
            (setCurrentInnings { m with playerPerformances := perfsAfter m inp }
              (innAfterStages m inp)).settings.overs ≤
            (setCurrentInnings { m with playerPerformances := perfsAfter m inp }
              (innAfterStages m inp)).cur.totalOvers
        · rw [hKlaw.2, if_pos hwo]
        · rw [hKlaw.1, if_neg hwo, hLstatus, hs1] at hcompleted
          cases hcompleted
    refine ⟨?_, ?_, ?_⟩
    · intro hgt
      rw [hres]
      simp only [determineResult]
      rw [if_neg (not_not_intro hcompleted), if_pos hgt]
    · intro hlt
      have hngt : ¬((applyBallCore m inp).first.totalRuns <
          (applyBallCore m inp).second.totalRuns) := by omega
      rw [hres]
      simp only [determineResult]
      rw [if_neg (not_not_intro hcompleted), if_neg hngt, if_pos hlt]
    · intro heq
      have hngt : ¬((applyBallCore m inp).first.totalRuns <
          (applyBallCore m inp).second.totalRuns) := by omega
      have hnlt : ¬((applyBallCore m inp).second.totalRuns <
          (applyBallCore m inp).first.totalRuns) := by omega
      rw [hres]
      simp only [determineResult]
      rw [if_neg (not_not_intro hcompleted), if_neg hngt, if_neg hnlt]

end CricketBox

namespace CricketBox

/-- Witness for C6: a wicket on a concrete second innings with four wickets
already down and both totals scoreless — the wickets are exhausted, the match
completes and the stored result is the tie. -/
theorem chase_and_result_witness :
    (applyBallCore matchFixtureTie wicketInput).first = matchFixtureTie.first ∧
    (matchFixtureTie.first.totalRuns + 1 ≤
        (applyBallCore matchFixtureTie wicketInput).second.totalRuns →
      (applyBallCore matchFixtureTie wicketInput).status =
        MatchStatus.completed) ∧
    (matchFixtureTie.settings.playersPerTeam - 1 ≤
        (applyBallCore matchFixtureTie wicketInput).second.totalWickets ∨
        matchFixtureTie.settings.overs ≤
        (applyBallCore matchFixtureTie wicketInput).second.totalOvers →
      (applyBallCore matchFixtureTie wicketInput).status =
        MatchStatus.completed) ∧
    ((applyBallCore matchFixtureTie wicketInput).status =
        MatchStatus.completed →
      ((applyBallCore matchFixtureTie wicketInput).first.totalRuns <
          (applyBallCore matchFixtureTie wicketInput).second.totalRuns →
        (applyBallCore matchFixtureTie wicketInput).result =
          some ⟨some (applyBallCore matchFixtureTie wicketInput).second.battingTeam,
            (if (applyBallCore matchFixtureTie wicketInput).second.battingTeam =
                Team.teamA then ResultType.teamAWon else ResultType.teamBWon),
            some (WinMargin.wickets
              ((applyBallCore matchFixtureTie wicketInput).settings.playersPerTeam -
                1 - (applyBallCore matchFixtureTie wicketInput).second.totalWickets))⟩) ∧
      ((applyBallCore matchFixtureTie wicketInput).second.totalRuns <
          (applyBallCore matchFixtureTie wicketInput).first.totalRuns →
        (applyBallCore matchFixtureTie wicketInput).result =
          some ⟨some (applyBallCore matchFixtureTie wicketInput).first.battingTeam,
            (if (applyBallCore matchFixtureTie wicketInput).first.battingTeam =
                Team.teamA then ResultType.teamAWon else ResultType.teamBWon),
            some (WinMargin.runs
              ((applyBallCore matchFixtureTie wicketInput).first.totalRuns -
                (applyBallCore matchFixtureTie wicketInput).second.totalRuns))⟩) ∧
      ((applyBallCore matchFixtureTie wicketInput).first.totalRuns =
          (applyBallCore matchFixtureTie wicketInput).second.totalRuns →
        (applyBallCore matchFixtureTie wicketInput).result =
          some ⟨none, ResultType.tie, none⟩)) :=
  chase_and_result matchFixtureTie wicketInput
    (applyBallCore matchFixtureTie wicketInput) rfl rfl

end CricketBox

namespace CricketBox

/-- With the first innings selected, the active innings is the first. -/
theorem cur_eq_first (X : Match) (h : X.currentInnings = InningsSel.first) :
    X.cur = X.first := by
  unfold Match.cur
  rw [h]

/-- With the second innings selected, the active innings is the second. -/
theorem cur_eq_second (X : Match) (h : X.currentInnings = InningsSel.second) :
    X.cur = X.second := by
  unfold Match.cur
  rw [h]

/-- With the first innings selected, the other innings is the second. -/
theorem other_eq_second (X : Match) (h : X.currentInnings = InningsSel.first) :
    otherInnings X = X.second := by
  unfold otherInnings
  rw [h]

/-- With the second innings selected, the other innings is the first. -/
theorem other_eq_first (X : Match) (h : X.currentInnings = InningsSel.second) :
    otherInnings X = X.first := by
  unfold otherInnings
  rw [h]

/-- The chase check never modifies the inactive innings. -/
theorem checkChaseCompletion_other (X : Match) :
    otherInnings (checkChaseCompletion X) = otherInnings X := by
  cases hsel : X.currentInnings
  · rw [checkChaseCompletion_noop X hsel]
  · rw [other_eq_first _ (((checkChaseCompletion_frame X).2.1).trans hsel),
      other_eq_first X hsel]
    exact (checkChaseCompletion_frame X).2.2.2.2.2

/-- With the first innings active, the wickets/overs completion check leaves
the second innings' ledger fields untouched (only its target is stamped). -/
theorem checkInningsCompletion_secondLedger (X : Match)
    (hsel : X.currentInnings = InningsSel.first) :
    (checkInningsCompletion X).second.balls = X.second.balls ∧
    (checkInningsCompletion X).second.totalRuns = X.second.totalRuns ∧
    (checkInningsCompletion X).second.totalWickets = X.second.totalWickets ∧
    (checkInningsCompletion X).second.totalBalls = X.second.totalBalls ∧
    (checkInningsCompletion X).second.fallOfWickets = X.second.fallOfWickets := by
  simp only [checkInningsCompletion]
  split
  · simp [setCurrentInnings, hsel]
  · simp

/-- The wickets/overs completion check leaves the inactive innings' ledger
fields untouched. -/
theorem checkInningsCompletion_otherLedger (X : Match) :
    (otherInnings (checkInningsCompletion X)).balls = (otherInnings X).balls ∧
    (otherInnings (checkInningsCompletion X)).totalRuns =
      (otherInnings X).totalRuns ∧
    (otherInnings (checkInningsCompletion X)).totalWickets =
      (otherInnings X).totalWickets ∧
    (otherInnings (checkInningsCompletion X)).totalBalls =
      (otherInnings X).totalBalls ∧
    (otherInnings (checkInningsCompletion X)).fallOfWickets =
      (otherInnings X).fallOfWickets := by
  cases hsel : X.currentInnings
  · rw [other_eq_second _ (((checkInningsCompletion_frame X).2.1).trans hsel),
      other_eq_second X hsel]
    exact checkInningsCompletion_secondLedger X hsel
  · rw [other_eq_first _ (((checkInningsCompletion_frame X).2.1).trans hsel),
      other_eq_first X hsel,
      (checkInningsCompletion_frame X).2.2.2.2.2 hsel]
    exact ⟨rfl, rfl, rfl, rfl, rfl⟩

/-- A recordBall mutation leaves the inactive innings' ledger fields
untouched. -/
theorem applyBallCore_otherLedger (m : Match) (inp : BallInput) :
    (otherInnings (applyBallCore m inp)).balls = (otherInnings m).balls ∧
    (otherInnings (applyBallCore m inp)).totalRuns =
      (otherInnings m).totalRuns ∧
    (otherInnings (applyBallCore m inp)).totalWickets =
      (otherInnings m).totalWickets ∧
    (otherInnings (applyBallCore m inp)).totalBalls =
      (otherInnings m).totalBalls ∧
    (otherInnings (applyBallCore m inp)).fallOfWickets =
      (otherInnings m).fallOfWickets := by
  rw [applyBallCore_eq, checkChaseCompletion_other]
  have hK := checkInningsCompletion_otherLedger
    (setCurrentInnings { m with playerPerformances := perfsAfter m inp }
      (innAfterStages m inp))
  have hset : otherInnings (setCurrentInnings
      { m with playerPerformances := perfsAfter m inp }
      (innAfterStages m inp)) = otherInnings m := by
    rw [otherInnings_setCurrentInnings]
    cases hsel : m.currentInnings <;> simp [otherInnings, hsel]
  rw [hset] at hK
  exact hK

end CricketBox

namespace CricketBox

/-- A recordBall mutation preserves the strengthened ledger invariant of the
active innings. -/
theorem applyBallCore_cur_preserves (m : Match) (inp : BallInput)
    (hinv : strongLedgerInvariant m.cur) :
    strongLedgerInvariant (applyBallCore m inp).cur := by
  obtain ⟨⟨h1, h2, h3⟩, h4⟩ := hinv
  obtain ⟨hb1, hb2, hb3, hb4, hb5, hb6, hb7, hb8, hb9, hb10, hb11⟩ :=
    ballOf_facts m inp
  obtain ⟨⟨ha1, ha2, ha3, ha4, ha5, ha6, ha7, ha8, ha9, ha10⟩, hil, hlg⟩ :=
    innAfterStages_facts m inp
  obtain ⟨hc1, hc2, hc3, hc4, hc5, hc6, hc7, hc8, hc9, hc10, hc11, hc12, hc13,
    hc14, hc15, hc16, hc17, hc18, hc19⟩ := applyBallCore_cur_fields m inp
  have hbr : (ballOf m inp).runs.totalRuns = (rcOf m inp).totalRuns := by
    rw [hb2]
  refine ⟨⟨?_, ?_, ?_⟩, ?_⟩
  · rw [hc2, ha2, hc1, ha1, h1]
    simp only [List.map_append, List.map_cons, List.map_nil, List.sum_append,
      List.sum_cons, List.sum_nil, hbr]
    omega
  · rw [hc3, ha3, hc12, ha4]
    cases hwk : isWicketBall inp <;>
      simp only [Bool.false_eq_true, if_false, if_true, List.append_nil,
        List.length_append, List.length_cons, List.length_nil] <;>
      push_cast <;>
      omega
  · rw [hc5, ha10, hc1, ha1]
    simp only [List.filter_append]
    cases hl : (rcOf m inp).isLegalDelivery <;>
      simp only [List.filter_cons, List.filter_nil, hb3, hl, if_true, if_false,
        Bool.false_eq_true, List.append_nil, List.length_append,
        List.length_cons, List.length_nil, cond_true, cond_false] <;>
      push_cast <;>
      omega
  · rw [hc3, ha3, hc1, ha1]
    simp only [List.filter_append]
    cases hwk : isWicketBall inp <;>
      simp only [List.filter_cons, List.filter_nil, hb5, hwk, if_true, if_false,
        Bool.false_eq_true, List.append_nil, List.length_append,
        List.length_cons, List.length_nil, cond_true, cond_false] <;>
      push_cast <;>
      omega

end CricketBox

namespace CricketBox

/-- A successful undoLastBall call pops the last ledger entry of the active
innings and is the innings reversal. -/
theorem undoLastBall_ok_elim (m m2 : Match)
    (h : undoLastBall m = Except.ok m2) :
    ∃ b, m.cur.balls.getLast? = some b ∧
      m2 = setCurrentInnings m (undoInnings m.settings m.cur b) := by
  unfold undoLastBall at h
  cases hb : m.cur.balls.getLast? with
  | none =>
      simp only [hb] at h
      exact Except.noConfusion h
  | some b =>
      simp only [hb, Except.ok.injEq] at h
      exact ⟨b, rfl, h.symm⟩

/-- Popping the last ledger entry preserves the strengthened ledger
invariant. -/
theorem undoInnings_preserves (s : Settings) (inn : Innings) (b : Ball)
    (hb : inn.balls.getLast? = some b)
    (hinv : strongLedgerInvariant inn) :
    strongLedgerInvariant (undoInnings s inn b) := by
  obtain ⟨⟨h1, h2, h3⟩, h4⟩ := hinv
  obtain ⟨hu1, hu2, hu3, hu4, hu5, hu6, hu7, hu8, hu9, hu10, hu11, hu12, hu13⟩ :=
    undoInnings_values s inn b
  have hne : inn.balls ≠ [] := by
    intro hx
    rw [hx] at hb
    cases hb
  have hsplit : inn.balls.dropLast ++ [b] = inn.balls := by
    have hlast : inn.balls.getLast hne = b := by
      rw [List.getLast?_eq_getLast _ hne] at hb
      exact Option.some.inj hb
    rw [← hlast]
    exact List.dropLast_append_getLast hne
  have hsum : (inn.balls.map (fun x => x.runs.totalRuns)).sum =
      (inn.balls.dropLast.map (fun x => x.runs.totalRuns)).sum +
        b.runs.totalRuns := by
    conv_lhs => rw [← hsplit]
    simp
  have hwcount : (inn.balls.filter (fun x => x.isWicket)).length =
      (inn.balls.dropLast.filter (fun x => x.isWicket)).length +
        (if b.isWicket then 1 else 0) := by
    conv_lhs => rw [← hsplit]
    cases hw : b.isWicket <;> simp [List.filter_append, hw]
  have hlcount : (inn.balls.filter (fun x => x.isLegalDelivery)).length =
      (inn.balls.dropLast.filter (fun x => x.isLegalDelivery)).length +
        (if b.isLegalDelivery then 1 else 0) := by
    conv_lhs => rw [← hsplit]
    cases hl : b.isLegalDelivery <;> simp [List.filter_append, hl]
  have hfowlen : inn.fallOfWickets.dropLast.length =
      inn.fallOfWickets.length - 1 := List.length_dropLast _
  refine ⟨⟨?_, ?_, ?_⟩, ?_⟩
  · rw [hu2, hu1, h1]
    omega
  · cases hw : b.isWicket
    · simp only [hw] at hu3 hu4 hwcount
      simp at hu3 hu4 hwcount
      rw [hu3, hu4]
      omega
    · simp only [hw] at hu3 hu4 hwcount
      simp at hu3 hu4 hwcount
      rw [hu3, hu4]
      omega
  · cases hl : b.isLegalDelivery
    · simp only [hl] at hu5 hlcount
      simp at hu5 hlcount
      rw [hu5, hu1]
      omega
    · simp only [hl] at hu5 hlcount
      simp at hu5 hlcount
      rw [hu5, hu1]
      omega
  · cases hw : b.isWicket
    · simp only [hw] at hu3 hwcount
      simp at hu3 hwcount
      rw [hu3, hu1]
      omega
    · simp only [hw] at hu3 hwcount
      simp at hu3 hwcount
      rw [hu3, hu1]
      omega

end CricketBox

namespace CricketBox

/-- The ledger invariant only reads the totals, the ledger and the
fall-of-wickets list. -/
theorem strongLedgerInvariant_congr (a b : Innings)
    (h1 : b.totalRuns = a.totalRuns) (h2 : b.totalWickets = a.totalWickets)
    (h3 : b.totalBalls = a.totalBalls) (h4 : b.balls = a.balls)
    (h5 : b.fallOfWickets = a.fallOfWickets)
    (h : strongLedgerInvariant a) : strongLedgerInvariant b := by
  unfold strongLedgerInvariant ledgerInvariant at h ⊢
  rw [h1, h2, h3, h4, h5]
  exact h

/-- A successful setBatsmen call only rewrites the active innings' batsmen
slots, status and over cursor. -/
theorem setBatsmen_ok_elim (m : Match) (sIn nIn : Option PlayerId)
    (m2 : Match) (h : setBatsmen m sIn nIn = Except.ok m2) :
    ∃ inn2, m2 = setCurrentInnings m inn2 ∧
      inn2.totalRuns = m.cur.totalRuns ∧
      inn2.totalWickets = m.cur.totalWickets ∧
      inn2.totalBalls = m.cur.totalBalls ∧
      inn2.balls = m.cur.balls ∧
      inn2.fallOfWickets = m.cur.fallOfWickets := by
  cases sIn <;> cases nIn
  all_goals simp only [setBatsmen] at h
  all_goals
    repeat'
      first
        | split_ifs at h
        | simp only [] at h
  all_goals
    first
      | exact Except.noConfusion h
      | (simp only [Except.ok.injEq] at h
         exact ⟨_, h.symm, rfl, rfl, rfl, rfl, rfl⟩)
      | exact ⟨_, h.symm, rfl, rfl, rfl, rfl, rfl⟩
      | exact ⟨_, h, rfl, rfl, rfl, rfl, rfl⟩

/-- A successful setBowler call only rewrites the active innings' bowler
slot. -/
theorem setBowler_ok_elim (m : Match) (bIn : Option PlayerId) (m2 : Match)
    (h : setBowler m bIn = Except.ok m2) :
    ∃ inn2, m2 = setCurrentInnings m inn2 ∧
      inn2.totalRuns = m.cur.totalRuns ∧
      inn2.totalWickets = m.cur.totalWickets ∧
      inn2.totalBalls = m.cur.totalBalls ∧
      inn2.balls = m.cur.balls ∧
      inn2.fallOfWickets = m.cur.fallOfWickets := by
  have hid : setCurrentInnings m m.cur = m := by
    cases hsel : m.currentInnings <;>
      simp [setCurrentInnings, Match.cur, hsel] <;>
      rw [← hsel]
  cases bIn
  all_goals simp only [setBowler] at h
  all_goals
    repeat'
      first
        | split_ifs at h
        | simp only [] at h
  all_goals
    first
      | exact Except.noConfusion h
      | (simp only [Except.ok.injEq] at h
         first
           | exact ⟨_, h.symm, rfl, rfl, rfl, rfl, rfl⟩
           | exact ⟨m.cur, by rw [hid]; exact h.symm, rfl, rfl, rfl, rfl, rfl⟩)
      | exact ⟨_, h.symm, rfl, rfl, rfl, rfl, rfl⟩
      | exact ⟨m.cur, by rw [hid]; exact h.symm, rfl, rfl, rfl, rfl, rfl⟩
      | exact ⟨m.cur, by rw [hid]; exact h, rfl, rfl, rfl, rfl, rfl⟩

/-- A successful setNewBatsman call only rewrites the active innings'
striker slot. -/
theorem setNewBatsman_ok_elim (m : Match) (bIn : Option PlayerId) (m2 : Match)
    (h : setNewBatsman m bIn = Except.ok m2) :
    ∃ inn2, m2 = setCurrentInnings m inn2 ∧
      inn2.totalRuns = m.cur.totalRuns ∧
      inn2.totalWickets = m.cur.totalWickets ∧
      inn2.totalBalls = m.cur.totalBalls ∧
      inn2.balls = m.cur.balls ∧
      inn2.fallOfWickets = m.cur.fallOfWickets := by
  have hid : setCurrentInnings m m.cur = m := by
    cases hsel : m.currentInnings <;>
      simp [setCurrentInnings, Match.cur, hsel] <;>
      rw [← hsel]
  cases bIn
  all_goals simp only [setNewBatsman] at h
  all_goals
    repeat'
      first
        | split_ifs at h
        | simp only [] at h
  all_goals
    first
      | exact Except.noConfusion h
      | (simp only [Except.ok.injEq] at h
         first
           | exact ⟨_, h.symm, rfl, rfl, rfl, rfl, rfl⟩
           | exact ⟨m.cur, by rw [hid]; exact h.symm, rfl, rfl, rfl, rfl, rfl⟩)
      | exact ⟨_, h.symm, rfl, rfl, rfl, rfl, rfl⟩
      | exact ⟨m.cur, by rw [hid]; exact h.symm, rfl, rfl, rfl, rfl, rfl⟩
      | exact ⟨m.cur, by rw [hid]; exact h, rfl, rfl, rfl, rfl, rfl⟩

/-- Every successful scoring step — recordBall, undoLastBall or
startSecondInnings — preserves the strengthened ledger invariant of both
innings. -/
theorem scoringStep_preserves (m m2 : Match) (hstep : ScoringStep m m2)
    (hinv : strongLedgerInvariant m.first ∧ strongLedgerInvariant m.second) :
    strongLedgerInvariant m2.first ∧ strongLedgerInvariant m2.second := by
  have hcur : strongLedgerInvariant m.cur := by
    cases hsel : m.currentInnings
    · rw [cur_eq_first m hsel]; exact hinv.1
    · rw [cur_eq_second m hsel]; exact hinv.2
  have hoth : strongLedgerInvariant (otherInnings m) := by
    cases hsel : m.currentInnings
    · rw [other_eq_second m hsel]; exact hinv.2
    · rw [other_eq_first m hsel]; exact hinv.1
  cases hstep with
  | record inp _ _ hok =>
      obtain ⟨rfl, -, -, -, -⟩ := recordBall_ok_elim _ inp _ hok
      have hc := applyBallCore_cur_preserves m inp hcur
      have hother : strongLedgerInvariant (otherInnings (applyBallCore m inp)) := by
        obtain ⟨ho1, ho2, ho3, ho4, ho5⟩ := applyBallCore_otherLedger m inp
        unfold strongLedgerInvariant ledgerInvariant at hoth ⊢
        rw [ho1, ho2, ho3, ho4, ho5]
        exact hoth
      have hselq : (applyBallCore m inp).currentInnings = m.currentInnings :=
        (applyBallCore_cur_fields m inp).2.2.2.2.2.2.2.2.2.2.2.2.2.2.2.1
      cases hsel : m.currentInnings
      · exact ⟨by rw [← cur_eq_first _ (hselq.trans hsel)]; exact hc,
          by rw [← other_eq_second _ (hselq.trans hsel)]; exact hother⟩
      · exact ⟨by rw [← other_eq_first _ (hselq.trans hsel)]; exact hother,
          by rw [← cur_eq_second _ (hselq.trans hsel)]; exact hc⟩
  | undo _ _ hok =>
      obtain ⟨b, hb, rfl⟩ := undoLastBall_ok_elim _ _ hok
      have hc : strongLedgerInvariant
          (setCurrentInnings m (undoInnings m.settings m.cur b)).cur := by
        rw [cur_setCurrentInnings]
        exact undoInnings_preserves _ _ _ hb hcur
      have hother : strongLedgerInvariant
          (otherInnings (setCurrentInnings m (undoInnings m.settings m.cur b))) := by
        rw [otherInnings_setCurrentInnings]
        exact hoth
      have hselq := currentInnings_setCurrentInnings m
        (undoInnings m.settings m.cur b)
      cases hsel : m.currentInnings
      · exact ⟨by rw [← cur_eq_first _ (hselq.trans hsel)]; exact hc,
          by rw [← other_eq_second _ (hselq.trans hsel)]; exact hother⟩
      · exact ⟨by rw [← other_eq_first _ (hselq.trans hsel)]; exact hother,
          by rw [← cur_eq_second _ (hselq.trans hsel)]; exact hc⟩
  | secondInnings _ _ hok =>
      unfold startSecondInnings at hok
      split at hok
      · exact Except.noConfusion hok
      · simp only [Except.ok.injEq] at hok
        subst hok
        exact ⟨hinv.1, ⟨⟨hinv.2.1.1, hinv.2.1.2.1, hinv.2.1.2.2⟩, hinv.2.2⟩⟩
  | batsmen sIn nIn _ _ hok =>
      obtain ⟨inn2, rfl, e1, e2, e3, e4, e5⟩ := setBatsmen_ok_elim _ _ _ _ hok
      have hc : strongLedgerInvariant (setCurrentInnings m inn2).cur := by
        rw [cur_setCurrentInnings]
        exact strongLedgerInvariant_congr m.cur inn2 e1 e2 e3 e4 e5 hcur
      have hother :
          strongLedgerInvariant (otherInnings (setCurrentInnings m inn2)) := by
        rw [otherInnings_setCurrentInnings]
        exact hoth
      have hselq := currentInnings_setCurrentInnings m inn2
      cases hsel : m.currentInnings
      · exact ⟨by rw [← cur_eq_first _ (hselq.trans hsel)]; exact hc,
          by rw [← other_eq_second _ (hselq.trans hsel)]; exact hother⟩
      · exact ⟨by rw [← other_eq_first _ (hselq.trans hsel)]; exact hother,
          by rw [← cur_eq_second _ (hselq.trans hsel)]; exact hc⟩
  | bowler bIn _ _ hok =>
      obtain ⟨inn2, rfl, e1, e2, e3, e4, e5⟩ := setBowler_ok_elim _ _ _ hok
      have hc : strongLedgerInvariant (setCurrentInnings m inn2).cur := by
        rw [cur_setCurrentInnings]
        exact strongLedgerInvariant_congr m.cur inn2 e1 e2 e3 e4 e5 hcur
      have hother :
          strongLedgerInvariant (otherInnings (setCurrentInnings m inn2)) := by
        rw [otherInnings_setCurrentInnings]
        exact hoth
      have hselq := currentInnings_setCurrentInnings m inn2
      cases hsel : m.currentInnings
      · exact ⟨by rw [← cur_eq_first _ (hselq.trans hsel)]; exact hc,
          by rw [← other_eq_second _ (hselq.trans hsel)]; exact hother⟩
      · exact ⟨by rw [← other_eq_first _ (hselq.trans hsel)]; exact hother,
          by rw [← cur_eq_second _ (hselq.trans hsel)]; exact hc⟩
  | newBatsman bIn _ _ hok =>
      obtain ⟨inn2, rfl, e1, e2, e3, e4, e5⟩ := setNewBatsman_ok_elim _ _ _ hok
      have hc : strongLedgerInvariant (setCurrentInnings m inn2).cur := by
        rw [cur_setCurrentInnings]
        exact strongLedgerInvariant_congr m.cur inn2 e1 e2 e3 e4 e5 hcur
      have hother :
          strongLedgerInvariant (otherInnings (setCurrentInnings m inn2)) := by
        rw [otherInnings_setCurrentInnings]
        exact hoth
      have hselq := currentInnings_setCurrentInnings m inn2
      cases hsel : m.currentInnings
      · exact ⟨by rw [← cur_eq_first _ (hselq.trans hsel)]; exact hc,
          by rw [← other_eq_second _ (hselq.trans hsel)]; exact hother⟩
      · exact ⟨by rw [← other_eq_first _ (hselq.trans hsel)]; exact hother,
          by rw [← cur_eq_second _ (hselq.trans hsel)]; exact hc⟩

/-- A successful toss leaves both innings with the strengthened ledger
invariant (all totals zero, both ledgers empty). -/
theorem conductToss_ok_invariants (pre m0 : Match) (w : Team)
    (d : TossDecision) (h0 : conductToss pre w d = Except.ok m0) :
    strongLedgerInvariant m0.first ∧ strongLedgerInvariant m0.second := by
  unfold conductToss at h0
  split at h0
  · exact Except.noConfusion h0
  · simp only [Except.ok.injEq] at h0
    subst h0
    constructor <;>
      simp [strongLedgerInvariant, ledgerInvariant, initInnings]

/-- C1: on every match state reachable from a freshly tossed match by any
sequence of successful scoring calls — recordBall, undoLastBall,
startSecondInnings, setBatsmen, setBowler and setNewBatsman — both innings
satisfy the ledger invariants: totalRuns is the sum of the ledger entries'
totalRuns, totalWickets is the length of the fall-of-wickets list, and
totalBalls is the number of ledger entries with isLegalDelivery true. -/
theorem ledger_invariants_reachable (pre m0 mF : Match) (w : Team)
    (d : TossDecision) (h0 : conductToss pre w d = Except.ok m0)
    (hreach : Relation.ReflTransGen ScoringStep m0 mF) :
    ledgerInvariant mF.first ∧ ledgerInvariant mF.second := by
  have hstrong : strongLedgerInvariant mF.first ∧
      strongLedgerInvariant mF.second := by
    induction hreach with
    | refl => exact conductToss_ok_invariants pre m0 w d h0
    | tail hab hstep ih => exact scoringStep_preserves _ _ hstep ih
  exact ⟨hstrong.1.1, hstrong.2.1⟩

/-- Witness for C1: from the concrete freshly tossed match, set the opening
batsmen, set the opening bowler, record a boundary four and undo it; the
resulting state satisfies both ledger invariants. -/
theorem ledger_invariants_reachable_witness :
    ledgerInvariant reachFixture4.first ∧
    ledgerInvariant reachFixture4.second :=
  ledger_invariants_reachable matchFixtureToss tossedFixture reachFixture4
    Team.teamA TossDecision.bat rfl
    (Relation.ReflTransGen.tail
      (Relation.ReflTransGen.tail
        (Relation.ReflTransGen.tail
          (Relation.ReflTransGen.tail Relation.ReflTransGen.refl
            (ScoringStep.batsmen (some (PlayerId.guest "s1"))
              (some (PlayerId.guest "s2")) tossedFixture reachFixture1 rfl))
          (ScoringStep.bowler (some (PlayerId.guest "b1")) reachFixture1
            reachFixture2 rfl))
        (ScoringStep.record fourInput reachFixture2 reachFixture3 rfl))
      (ScoringStep.undo reachFixture3 reachFixture4 rfl))

end CricketBox
